import Mathlib

/-!
Verification of the claudeborne real-time presentation engine.

Shallow embedding of the core engine components
(`packages/web/src/scenes/SceneTransition.ts`,
`packages/web/src/engine/camera.ts`, `packages/web/src/engine/types.ts`
(GameLoop, LpcAnimator), `packages/web/src/engine/animation.ts`,
`packages/web/src/characters/CharacterController.ts`,
`packages/web/src/engine/particles.ts`).

Modelling conventions:
* JavaScript numbers are modelled as exact rationals (`ℚ`); the claims
  under scrutiny are about the logical control flow and exact arithmetic
  identities of the algorithms, not about float rounding.
* `Math.sqrt` is modelled by `Rat.sqrt`, which agrees with the real
  square root on every perfect-square input; every concrete scenario in
  the claims is axis-aligned, where the distances are perfect squares.
* `Math.random`, `Math.cos`, `Math.sin` are modelled by an injected
  environment (`MathEnv`): a stream of random draws and trig oracles.
  All verified properties hold for every environment.
* Completion callbacks are modelled by a presence flag plus an
  invocation counter (`calls`), incremented exactly where the source
  executes `this.state.onComplete?.()`.
* JavaScript `while` loops are modelled by structurally recursive
  functions taking an explicit iteration bound ("fuel") that is computed
  from the loop variable exactly as the loop's arithmetic dictates; the
  bound is exact for the nonneg-duration inputs the engine uses.
-/

/-! ## SceneTransition (scenes/SceneTransition.ts) -/

inductive TransitionPhase where
  | none
  | fade_out
  | title_display
  | fade_in
  | death_flash
  | death_text
  | death_hold
  | victory_banner
  | victory_hold
deriving DecidableEq, Repr

structure TransitionState where
  phase : TransitionPhase
  elapsed : ℚ
  duration : ℚ
  text : String
  subText : String
  /-- whether `onComplete` is non-null -/
  hasOnComplete : Bool
  textColor : String
  /-- instrumentation: number of times `onComplete?.()` has fired -/
  calls : ℕ
deriving DecidableEq, Repr

def FADE_OUT_DURATION : ℚ := 1/2
def TITLE_DISPLAY_DURATION : ℚ := 3/2
def FADE_IN_DURATION : ℚ := 1/2
def DEATH_FLASH_DURATION : ℚ := 3/10
def DEATH_TEXT_DURATION : ℚ := 2
def DEATH_HOLD_DURATION : ℚ := 3/2
def VICTORY_BANNER_DURATION : ℚ := 5/2
def VICTORY_HOLD_DURATION : ℚ := 3/2

def startSceneEntry (sceneName gameName : String) (hasCb : Bool) : TransitionState :=
  { phase := .title_display
    elapsed := 0
    duration := TITLE_DISPLAY_DURATION
    text := sceneName
    subText := gameName
    hasOnComplete := hasCb
    textColor := "#d4a017"
    calls := 0 }

def startDeath (deathText : String) (hasCb : Bool) : TransitionState :=
  { phase := .death_flash
    elapsed := 0
    duration := DEATH_FLASH_DURATION
    text := deathText
    subText := ""
    hasOnComplete := hasCb
    textColor := "#8b0000"
    calls := 0 }

def startVictory (victoryText : String) (hasCb : Bool) : TransitionState :=
  { phase := .victory_banner
    elapsed := 0
    duration := VICTORY_BANNER_DURATION
    text := victoryText
    subText := ""
    hasOnComplete := hasCb
    textColor := "#ffd700"
    calls := 0 }

/-- `s.onComplete?.()` -/
def fireOnComplete (s : TransitionState) : TransitionState :=
  if s.hasOnComplete then { s with calls := s.calls + 1 } else s

def advancePhase (s : TransitionState) : TransitionState :=
  match s.phase with
  | .fade_out =>
      { s with phase := .title_display, elapsed := 0, duration := TITLE_DISPLAY_DURATION }
  | .title_display =>
      { s with phase := .fade_in, elapsed := 0, duration := FADE_IN_DURATION }
  | .fade_in =>
      fireOnComplete { s with phase := .none }
  | .death_flash =>
      { s with phase := .death_text, elapsed := 0, duration := DEATH_TEXT_DURATION }
  | .death_text =>
      { s with phase := .death_hold, elapsed := 0, duration := DEATH_HOLD_DURATION }
  | .death_hold =>
      fireOnComplete { s with phase := .none }
  | .victory_banner =>
      { s with phase := .victory_hold, elapsed := 0, duration := VICTORY_HOLD_DURATION }
  | .victory_hold =>
      fireOnComplete { s with phase := .none }
  | .none =>
      { s with phase := .none }

def stUpdate (dt : ℚ) (s : TransitionState) : TransitionState :=
  if s.phase = .none then s
  else if s.duration ≤ s.elapsed + dt then advancePhase { s with elapsed := s.elapsed + dt }
  else { s with elapsed := s.elapsed + dt }

def runUpdates (dts : List ℚ) (s : TransitionState) : TransitionState :=
  dts.foldl (fun acc d => stUpdate d acc) s

/-- C1 evaluation: `startSceneEntry` enters `title_display`, not `fade_out`. -/
theorem startSceneEntry_phase_is_title_display :
    (startSceneEntry "FIRELINK SHRINE" "CLAUDEBORNE" true).phase =
        TransitionPhase.title_display ∧
      TransitionPhase.title_display ≠ TransitionPhase.fade_out := by
  constructor
  · rfl
  · decide

theorem runUpdates_nil (s : TransitionState) : runUpdates [] s = s := rfl

theorem runUpdates_cons (d : ℚ) (dts : List ℚ) (s : TransitionState) :
    runUpdates (d :: dts) s = runUpdates dts (stUpdate d s) := rfl

theorem runUpdates_append (l₁ l₂ : List ℚ) (s : TransitionState) :
    runUpdates (l₁ ++ l₂) s = runUpdates l₂ (runUpdates l₁ s) :=
  List.foldl_append ..

/-- A run of `k` equal steps that stays strictly inside the current phase
only accumulates `elapsed`. -/
theorem runUpdates_replicate_stay (k : ℕ) (δ : ℚ) (s : TransitionState)
    (hp : s.phase ≠ .none) (hδ : 0 ≤ δ)
    (hlt : s.elapsed + k * δ < s.duration) :
    runUpdates (List.replicate k δ) s = { s with elapsed := s.elapsed + k * δ } := by
  induction k generalizing s with
  | zero => simp [runUpdates]
  | succ m ih =>
      push_cast at hlt
      have hmδ : (0 : ℚ) ≤ (m : ℚ) * δ := mul_nonneg (by positivity) hδ
      have hstep : s.elapsed + δ < s.duration := by nlinarith
      have hupd : stUpdate δ s = { s with elapsed := s.elapsed + δ } := by
        unfold stUpdate
        rw [if_neg hp, if_neg (not_le.mpr hstep)]
      have ihs := ih { s with elapsed := s.elapsed + δ } hp
        (by show s.elapsed + δ + (m : ℚ) * δ < s.duration; linarith)
      rw [List.replicate_succ, runUpdates_cons, hupd, ihs]
      congr 1
      push_cast
      ring

/-- A run of `n` equal steps that exactly exhausts the current phase ends
with `advancePhase` fired at `elapsed = duration`. -/
theorem runUpdates_replicate_finish (n : ℕ) (s : TransitionState)
    (hp : s.phase ≠ .none) (hn : 1 ≤ n) (hd : 0 < s.duration)
    (he : s.elapsed = 0) :
    runUpdates (List.replicate n (s.duration / n)) s =
      advancePhase { s with elapsed := s.duration } := by
  obtain ⟨m, rfl⟩ : ∃ m, n = m + 1 := ⟨n - 1, by omega⟩
  have hcpos : (0 : ℚ) < ((m + 1 : ℕ) : ℚ) := by exact_mod_cast Nat.succ_pos m
  have hcne : ((m + 1 : ℕ) : ℚ) ≠ 0 := ne_of_gt hcpos
  have hδpos : (0 : ℚ) < s.duration / ((m + 1 : ℕ) : ℚ) := div_pos hd hcpos
  have hformula : (m : ℚ) * (s.duration / ((m + 1 : ℕ) : ℚ)) =
      s.duration - s.duration / ((m + 1 : ℕ) : ℚ) := by
    field_simp
    ring
  have hstay : runUpdates (List.replicate m (s.duration / ((m + 1 : ℕ) : ℚ))) s =
      { s with elapsed := s.elapsed + m * (s.duration / ((m + 1 : ℕ) : ℚ)) } := by
    refine runUpdates_replicate_stay m _ s hp hδpos.le ?_
    rw [he, hformula]
    linarith
  have hfull : s.elapsed + (m : ℚ) * (s.duration / ((m + 1 : ℕ) : ℚ)) +
      s.duration / ((m + 1 : ℕ) : ℚ) = s.duration := by
    rw [he, hformula]
    ring
  rw [List.replicate_succ' m, runUpdates_append, hstay, runUpdates_cons, runUpdates_nil]
  unfold stUpdate
  rw [if_neg hp, if_pos (le_of_eq hfull.symm)]
  rw [show ({ s with elapsed := s.elapsed + (m : ℚ) * (s.duration / ((m + 1 : ℕ) : ℚ)) } :
      TransitionState).elapsed + s.duration / ((m + 1 : ℕ) : ℚ) = s.duration from hfull]

/-- C2 counterexample: a single `update` whose `dt` equals the sum of all
three death-phase durations (3.8 s) invokes the completion callback zero
times — the overshoot past the `death_flash` boundary is discarded. -/
theorem death_lump_sum_calls_zero :
    (19/5 : ℚ) = DEATH_FLASH_DURATION + DEATH_TEXT_DURATION + DEATH_HOLD_DURATION ∧
      (runUpdates [19/5] (startDeath "YOU DIED" true)).calls = 0 ∧
      (runUpdates [19/5] (startDeath "YOU DIED" true)).phase =
        TransitionPhase.death_text := by
  refine ⟨by norm_num [DEATH_FLASH_DURATION, DEATH_TEXT_DURATION, DEATH_HOLD_DURATION], ?_, ?_⟩ <;>
    · norm_num [runUpdates, stUpdate, advancePhase, fireOnComplete, startDeath,
        DEATH_FLASH_DURATION, DEATH_TEXT_DURATION, DEATH_HOLD_DURATION]
      rfl

/-- C2 amended: after `startDeath`, any sequence of `update` calls that
lands exactly on each phase boundary — each phase duration split into
equal steps — totals 3.8 s and invokes the completion callback exactly
once, and only on the very last (final-phase-expiring) call. -/
theorem death_aligned_run_calls_once (n₁ n₂ n₃ : ℕ)
    (h₁ : 1 ≤ n₁) (h₂ : 1 ≤ n₂) (h₃ : 1 ≤ n₃) :
    (runUpdates
        (List.replicate n₁ (DEATH_FLASH_DURATION / n₁) ++
          (List.replicate n₂ (DEATH_TEXT_DURATION / n₂) ++
            List.replicate n₃ (DEATH_HOLD_DURATION / n₃)))
        (startDeath "YOU DIED" true)).calls = 1 ∧
      (runUpdates
        (List.replicate n₁ (DEATH_FLASH_DURATION / n₁) ++
          (List.replicate n₂ (DEATH_TEXT_DURATION / n₂) ++
            List.replicate (n₃ - 1) (DEATH_HOLD_DURATION / n₃)))
        (startDeath "YOU DIED" true)).calls = 0 := by
  have hs1 : runUpdates (List.replicate n₁ (DEATH_FLASH_DURATION / n₁))
      (startDeath "YOU DIED" true) =
      ⟨.death_text, 0, DEATH_TEXT_DURATION, "YOU DIED", "", true, "#8b0000", 0⟩ := by
    have h := runUpdates_replicate_finish n₁ (startDeath "YOU DIED" true)
      (by simp [startDeath]) h₁ (by norm_num [startDeath, DEATH_FLASH_DURATION]) rfl
    rw [show (startDeath "YOU DIED" true).duration = DEATH_FLASH_DURATION from rfl] at h
    rw [h]
    rfl
  have hs2 : runUpdates (List.replicate n₂ (DEATH_TEXT_DURATION / n₂))
      (⟨.death_text, 0, DEATH_TEXT_DURATION, "YOU DIED", "", true, "#8b0000", 0⟩ :
        TransitionState) =
      ⟨.death_hold, 0, DEATH_HOLD_DURATION, "YOU DIED", "", true, "#8b0000", 0⟩ := by
    have h := runUpdates_replicate_finish n₂
      (⟨.death_text, 0, DEATH_TEXT_DURATION, "YOU DIED", "", true, "#8b0000", 0⟩ :
        TransitionState)
      (by simp) h₂ (by norm_num [DEATH_TEXT_DURATION]) rfl
    rw [h]
    rfl
  have hs3 : runUpdates (List.replicate n₃ (DEATH_HOLD_DURATION / n₃))
      (⟨.death_hold, 0, DEATH_HOLD_DURATION, "YOU DIED", "", true, "#8b0000", 0⟩ :
        TransitionState) =
      ⟨.none, DEATH_HOLD_DURATION, DEATH_HOLD_DURATION, "YOU DIED", "", true,
        "#8b0000", 1⟩ := by
    have h := runUpdates_replicate_finish n₃
      (⟨.death_hold, 0, DEATH_HOLD_DURATION, "YOU DIED", "", true, "#8b0000", 0⟩ :
        TransitionState)
      (by simp) h₃ (by norm_num [DEATH_HOLD_DURATION]) rfl
    rw [h]
    rfl
  have hn3 : (0 : ℚ) < (n₃ : ℚ) := by exact_mod_cast h₃
  have hδ3 : (0 : ℚ) < DEATH_HOLD_DURATION / (n₃ : ℚ) := by
    rw [DEATH_HOLD_DURATION]
    positivity
  have hkey : ((n₃ : ℚ) - 1) * (DEATH_HOLD_DURATION / (n₃ : ℚ)) =
      DEATH_HOLD_DURATION - DEATH_HOLD_DURATION / (n₃ : ℚ) := by
    field_simp
    ring
  have hs3p : runUpdates (List.replicate (n₃ - 1) (DEATH_HOLD_DURATION / n₃))
      (⟨.death_hold, 0, DEATH_HOLD_DURATION, "YOU DIED", "", true, "#8b0000", 0⟩ :
        TransitionState) =
      ⟨.death_hold, 0 + ((n₃ - 1 : ℕ) : ℚ) * (DEATH_HOLD_DURATION / n₃),
        DEATH_HOLD_DURATION, "YOU DIED", "", true, "#8b0000", 0⟩ := by
    have h := runUpdates_replicate_stay (n₃ - 1) (DEATH_HOLD_DURATION / n₃)
      (⟨.death_hold, 0, DEATH_HOLD_DURATION, "YOU DIED", "", true, "#8b0000", 0⟩ :
        TransitionState)
      (by simp) hδ3.le ?_
    · rw [h]
    · show (0 : ℚ) + ((n₃ - 1 : ℕ) : ℚ) * (DEATH_HOLD_DURATION / (n₃ : ℚ)) <
        DEATH_HOLD_DURATION
      rw [Nat.cast_sub h₃, Nat.cast_one, hkey]
      linarith
  constructor
  · rw [runUpdates_append, hs1, runUpdates_append, hs2, hs3]
  · rw [runUpdates_append, hs1, runUpdates_append, hs2, hs3p]


theorem death_aligned_run_calls_once_witness :
    (runUpdates
        (List.replicate 3 (DEATH_FLASH_DURATION / ((3 : ℕ) : ℚ)) ++
          (List.replicate 20 (DEATH_TEXT_DURATION / ((20 : ℕ) : ℚ)) ++
            List.replicate 15 (DEATH_HOLD_DURATION / ((15 : ℕ) : ℚ))))
        (startDeath "YOU DIED" true)).calls = 1 ∧
      (runUpdates
        (List.replicate 3 (DEATH_FLASH_DURATION / ((3 : ℕ) : ℚ)) ++
          (List.replicate 20 (DEATH_TEXT_DURATION / ((20 : ℕ) : ℚ)) ++
            List.replicate (15 - 1) (DEATH_HOLD_DURATION / ((15 : ℕ) : ℚ))))
        (startDeath "YOU DIED" true)).calls = 0 :=
  death_aligned_run_calls_once 3 20 15 (by norm_num) (by norm_num) (by norm_num)

/-- C5 counterexample: the final phase change (into `none`) does not reset
`elapsed` — after the aligned death run it is left at the last phase's
duration 1.5, not 0. -/
theorem death_final_phase_change_keeps_elapsed :
    (runUpdates [3/10, 2, 3/2] (startDeath "YOU DIED" true)).phase =
        TransitionPhase.none ∧
      (runUpdates [3/10, 2, 3/2] (startDeath "YOU DIED" true)).elapsed = 3/2 ∧
      (3/2 : ℚ) ≠ 0 := by
  have u1 : stUpdate (3/10) (startDeath "YOU DIED" true) =
      ⟨.death_text, 0, DEATH_TEXT_DURATION, "YOU DIED", "", true, "#8b0000", 0⟩ := by
    norm_num [stUpdate, startDeath, DEATH_FLASH_DURATION, advancePhase] <;> simp
  have u2 : stUpdate 2
      (⟨.death_text, 0, DEATH_TEXT_DURATION, "YOU DIED", "", true, "#8b0000", 0⟩ :
        TransitionState) =
      ⟨.death_hold, 0, DEATH_HOLD_DURATION, "YOU DIED", "", true, "#8b0000", 0⟩ := by
    norm_num [stUpdate, DEATH_TEXT_DURATION, advancePhase] <;> simp
  have u3 : stUpdate (3/2)
      (⟨.death_hold, 0, DEATH_HOLD_DURATION, "YOU DIED", "", true, "#8b0000", 0⟩ :
        TransitionState) =
      ⟨.none, 3/2, DEATH_HOLD_DURATION, "YOU DIED", "", true, "#8b0000", 1⟩ := by
    norm_num [stUpdate, DEATH_HOLD_DURATION, advancePhase, fireOnComplete] <;> simp
  rw [show runUpdates [3/10, 2, 3/2] (startDeath "YOU DIED" true) =
    stUpdate (3/2) (stUpdate 2 (stUpdate (3/10) (startDeath "YOU DIED" true))) from rfl,
    u1, u2, u3]
  norm_num

/-- C5 amended: the state machine is terminal at phase `none` (`update` is
the identity there), and `elapsed` is reset to 0 on every phase change
whose destination is an active (non-`none`) phase; only the final change
into `none` keeps the accumulated `elapsed`. -/
theorem stUpdate_terminal_and_elapsed_reset :
    (∀ (s : TransitionState) (dt : ℚ), s.phase = .none → stUpdate dt s = s) ∧
      (∀ (s : TransitionState) (dt : ℚ),
        (stUpdate dt s).phase ≠ s.phase → (stUpdate dt s).phase ≠ .none →
        (stUpdate dt s).elapsed = 0) := by
  constructor
  · intro s dt h
    unfold stUpdate
    rw [if_pos h]
  · intro s dt hch hnn
    by_cases h0 : s.phase = .none
    · rw [show stUpdate dt s = s from by unfold stUpdate; rw [if_pos h0]] at hch
      exact absurd rfl hch
    · unfold stUpdate at hch hnn ⊢
      rw [if_neg h0] at hch hnn ⊢
      by_cases hge : s.duration ≤ s.elapsed + dt
      · rw [if_pos hge] at hch hnn ⊢
        cases hp : s.phase <;>
          simp [advancePhase, hp, fireOnComplete, apply_ite] at hch hnn ⊢
      · rw [if_neg hge] at hch
        exact absurd rfl hch

theorem stUpdate_terminal_and_elapsed_reset_witness :
    stUpdate 7 (⟨.none, 5, 0, "", "", false, "", 0⟩ : TransitionState) =
        (⟨.none, 5, 0, "", "", false, "", 0⟩ : TransitionState) ∧
      (stUpdate 1 (startDeath "X" false)).elapsed = 0 := by
  have heval : stUpdate 1 (startDeath "X" false) =
      ⟨.death_text, 0, DEATH_TEXT_DURATION, "X", "", false, "#8b0000", 0⟩ := by
    norm_num [stUpdate, advancePhase, startDeath,
      DEATH_FLASH_DURATION, DEATH_TEXT_DURATION] <;> simp
  constructor
  · exact stUpdate_terminal_and_elapsed_reset.1 _ 7 rfl
  · refine stUpdate_terminal_and_elapsed_reset.2 (startDeath "X" false) 1 ?_ ?_ <;>
      rw [heval] <;> simp [startDeath]

/-! ## Camera (engine/camera.ts) -/

def WORLD_WIDTH : ℚ := 384
def WORLD_HEIGHT : ℚ := 216

structure Camera where
  worldWidth : ℚ
  worldHeight : ℚ
  viewportWidth : ℚ
  viewportHeight : ℚ
  scale : ℚ
  offsetX : ℚ
  offsetY : ℚ

def Camera.init (worldWidth : ℚ := WORLD_WIDTH) (worldHeight : ℚ := WORLD_HEIGHT) :
    Camera :=
  { worldWidth := worldWidth
    worldHeight := worldHeight
    viewportWidth := 0
    viewportHeight := 0
    scale := 1
    offsetX := 0
    offsetY := 0 }

def Camera.resize (c : Camera) (viewportWidth viewportHeight : ℚ) : Camera :=
  let scaleX := viewportWidth / c.worldWidth
  let scaleY := viewportHeight / c.worldHeight
  let rawScale := min scaleX scaleY
  let scale : ℚ :=
    if 1 ≤ rawScale then ((max 1 ⌊rawScale⌋ : ℤ) : ℚ) else rawScale
  let scaledWidth := c.worldWidth * scale
  let scaledHeight := c.worldHeight * scale
  { c with
    viewportWidth := viewportWidth
    viewportHeight := viewportHeight
    scale := scale
    offsetX := ((round ((viewportWidth - scaledWidth) / 2) : ℤ) : ℚ)
    offsetY := ((round ((viewportHeight - scaledHeight) / 2) : ℤ) : ℚ) }

def Camera.worldToScreen (c : Camera) (wx wy : ℚ) : ℚ × ℚ :=
  (((round (wx * c.scale + c.offsetX) : ℤ) : ℚ),
   ((round (wy * c.scale + c.offsetY) : ℤ) : ℚ))

def Camera.screenToWorld (c : Camera) (sx sy : ℚ) : ℚ × ℚ :=
  ((sx - c.offsetX) / c.scale, (sy - c.offsetY) / c.scale)

/-- Per-axis roundtrip bound: the only error is the `Math.round` in
`worldToScreen`, divided back down by the scale. -/
theorem roundtrip_axis (w o s : ℚ) (hs : 0 < s) :
    |(((round (w * s + o) : ℤ) : ℚ) - o) / s - w| ≤ 1 / (2 * s) := by
  have hs' : s ≠ 0 := ne_of_gt hs
  have h1 : (((round (w * s + o) : ℤ) : ℚ) - o) / s - w =
      (((round (w * s + o) : ℤ) : ℚ) - (w * s + o)) / s := by
    field_simp
    ring
  rw [h1, abs_div, abs_of_pos hs]
  have h2 : |((round (w * s + o) : ℤ) : ℚ) - (w * s + o)| ≤ 1 / 2 := by
    rw [abs_sub_comm]
    exact abs_sub_round _
  calc |((round (w * s + o) : ℤ) : ℚ) - (w * s + o)| / s ≤ (1 / 2) / s := by gcongr
    _ = 1 / (2 * s) := by ring

/-- C7: for every positive viewport and every point of the world
rectangle, `screenToWorld ∘ worldToScreen` recovers the point within the
rounding tolerance `1 / (2 · scale)`, and the computed scale is positive. -/
theorem camera_screenToWorld_worldToScreen (ww wh vw vh wx wy : ℚ)
    (hww : 0 < ww) (hwh : 0 < wh) (hvw : 0 < vw) (hvh : 0 < vh)
    (hx0 : 0 ≤ wx) (hx1 : wx ≤ ww) (hy0 : 0 ≤ wy) (hy1 : wy ≤ wh) :
    0 < ((Camera.init ww wh).resize vw vh).scale ∧
      |(((Camera.init ww wh).resize vw vh).screenToWorld
          (((Camera.init ww wh).resize vw vh).worldToScreen wx wy).1
          (((Camera.init ww wh).resize vw vh).worldToScreen wx wy).2).1 - wx| ≤
        1 / (2 * ((Camera.init ww wh).resize vw vh).scale) ∧
      |(((Camera.init ww wh).resize vw vh).screenToWorld
          (((Camera.init ww wh).resize vw vh).worldToScreen wx wy).1
          (((Camera.init ww wh).resize vw vh).worldToScreen wx wy).2).2 - wy| ≤
        1 / (2 * ((Camera.init ww wh).resize vw vh).scale) := by
  have hsc : 0 < ((Camera.init ww wh).resize vw vh).scale := by
    show 0 < (if 1 ≤ min (vw / ww) (vh / wh)
      then ((max 1 ⌊min (vw / ww) (vh / wh)⌋ : ℤ) : ℚ) else min (vw / ww) (vh / wh))
    have hmin : 0 < min (vw / ww) (vh / wh) :=
      lt_min (div_pos hvw hww) (div_pos hvh hwh)
    split
    · exact_mod_cast lt_of_lt_of_le Int.zero_lt_one (le_max_left 1 _)
    · exact hmin
  refine ⟨hsc, ?_, ?_⟩
  · exact roundtrip_axis wx ((Camera.init ww wh).resize vw vh).offsetX _ hsc
  · exact roundtrip_axis wy ((Camera.init ww wh).resize vw vh).offsetY _ hsc

theorem camera_screenToWorld_worldToScreen_witness :
    0 < ((Camera.init 384 216).resize 1920 1080).scale ∧
      |(((Camera.init 384 216).resize 1920 1080).screenToWorld
          (((Camera.init 384 216).resize 1920 1080).worldToScreen 10 7).1
          (((Camera.init 384 216).resize 1920 1080).worldToScreen 10 7).2).1 - 10| ≤
        1 / (2 * ((Camera.init 384 216).resize 1920 1080).scale) ∧
      |(((Camera.init 384 216).resize 1920 1080).screenToWorld
          (((Camera.init 384 216).resize 1920 1080).worldToScreen 10 7).1
          (((Camera.init 384 216).resize 1920 1080).worldToScreen 10 7).2).2 - 7| ≤
        1 / (2 * ((Camera.init 384 216).resize 1920 1080).scale) :=
  camera_screenToWorld_worldToScreen 384 216 1920 1080 10 7
    (by norm_num) (by norm_num) (by norm_num) (by norm_num)
    (by norm_num) (by norm_num) (by norm_num) (by norm_num)

/-! ## GameLoop (engine/types.ts, part_001-adjacent game loop module) -/

structure GameLoop where
  running : Bool
  lastTimestamp : ℚ
  paused : Bool
  frameCount : ℕ
  fpsAccumulator : ℚ
  currentFps : ℕ

def GameLoop.init : GameLoop :=
  { running := false, lastTimestamp := 0, paused := false
    frameCount := 0, fpsAccumulator := 0, currentFps := 0 }

def GameLoop.start (l : GameLoop) : GameLoop :=
  if l.running then l
  else { l with running := true, lastTimestamp := 0, paused := false }

/-- One `tick(timestamp)`: returns the new loop state and the `dt`
(in seconds) handed to the update/render callbacks, if any. -/
def GameLoop.tick (ts : ℚ) (l : GameLoop) : GameLoop × Option ℚ :=
  if !l.running then (l, none)
  else if l.paused then ({ l with lastTimestamp := 0 }, none)
  else if l.lastTimestamp = 0 then ({ l with lastTimestamp := ts }, none)
  else
    let dtMs0 := ts - l.lastTimestamp
    let dtMs := if 100 < dtMs0 then 100 else dtMs0
    let dt := dtMs / 1000
    let frameCount := l.frameCount + 1
    let fpsAccumulator := l.fpsAccumulator + dtMs
    if 1000 ≤ fpsAccumulator then
      ({ l with
          lastTimestamp := ts
          frameCount := 0
          fpsAccumulator := fpsAccumulator - 1000
          currentFps := frameCount }, some dt)
    else
      ({ l with
          lastTimestamp := ts
          frameCount := frameCount
          fpsAccumulator := fpsAccumulator }, some dt)

/-- Run a sequence of tick timestamps, collecting every `dt` handed to
the callbacks. -/
def runTicks : List ℚ → GameLoop → GameLoop × List ℚ
  | [], l => (l, [])
  | ts :: rest, l =>
      let r1 := GameLoop.tick ts l
      let r2 := runTicks rest r1.1
      (r2.1, (r1.2.toList) ++ r2.2)

theorem tick_dt_le (ts : ℚ) (l : GameLoop) (d : ℚ)
    (h : (GameLoop.tick ts l).2 = some d) : d ≤ 1 / 10 := by
  unfold GameLoop.tick at h
  split at h
  · simp at h
  · split at h
    · simp at h
    · split at h
      · simp at h
      · have hcap : (if 100 < ts - l.lastTimestamp then (100 : ℚ)
            else ts - l.lastTimestamp) ≤ 100 := by
          split
          · exact le_refl _
          · next hlt => linarith [not_lt.mp hlt]
        simp only [] at h
        split at h <;> split at h <;>
          · rw [show ∀ (a : GameLoop) (b : Option ℚ), (a, b).2 = b from fun _ _ => rfl,
              Option.some_inj] at h
            linarith [hcap, h]

/-- C8: every `dt` the game loop hands to its update/render callbacks is
at most 100 ms (1/10 s), for every sequence of tick timestamps and every
starting loop state. -/
theorem gameLoop_all_dts_le_cap (tss : List ℚ) (l : GameLoop) :
    ∀ d ∈ (runTicks tss l).2, d ≤ 1 / 10 := by
  induction tss generalizing l with
  | nil => simp [runTicks]
  | cons ts rest ih =>
      intro d hd
      simp only [runTicks, List.mem_append] at hd
      rcases hd with hd | hd
      · rw [Option.mem_toList, Option.mem_def] at hd
        exact tick_dt_le ts l d hd
      · exact ih _ d hd

theorem gameLoop_all_dts_le_cap_witness :
    (runTicks [1, 50, 500000] GameLoop.init.start).2 = [49/1000, 1/10] ∧
      (49/1000 : ℚ) ≤ 1 / 10 := by
  have hev : (runTicks [1, 50, 500000] GameLoop.init.start).2 = [49/1000, 1/10] := by
    norm_num [runTicks, GameLoop.tick, GameLoop.start, GameLoop.init]
  refine ⟨hev, gameLoop_all_dts_le_cap [1, 50, 500000] GameLoop.init.start (49/1000) ?_⟩
  rw [hev]
  simp

/-! ## AnimationController (engine/animation.ts) -/

structure AnimationDef where
  frames : List String
  frameDuration : ℚ
  loop : Bool
deriving DecidableEq, Repr

/-- The controller is parametric in the sprite payload type `α`
(`Sprite` in the source); the sheet is its `sprites` record. -/
structure AnimationController (α : Type) where
  sheet : List (String × α)
  animations : List (String × AnimationDef)
  currentAnim : Option String
  currentFrameIndex : ℕ
  elapsed : ℚ
  finished : Bool
  pendingAnim : Option String
  transitionMap : List (String × String)

def AnimationController.init {α : Type} (sheet : List (String × α))
    (animations : List (String × AnimationDef)) : AnimationController α :=
  { sheet := sheet
    animations := animations
    currentAnim := none
    currentFrameIndex := 0
    elapsed := 0
    finished := false
    pendingAnim := none
    transitionMap := [] }

def ACsetTransition {α : Type} (targetAnim transitionAnim : String)
    (c : AnimationController α) : AnimationController α :=
  { c with transitionMap := (targetAnim, transitionAnim) :: c.transitionMap }

def ACswitchTo {α : Type} (animName : String) (c : AnimationController α) :
    AnimationController α :=
  match c.animations.lookup animName with
  | none => c
  | some _ =>
      { c with
        currentAnim := some animName
        currentFrameIndex := 0
        elapsed := 0
        finished := false }

def ACplay {α : Type} (animName : String) (c : AnimationController α) :
    AnimationController α :=
  if c.currentAnim = some animName ∧ c.finished = false then c
  else
    match c.transitionMap.lookup animName with
    | some transition =>
        if c.currentAnim ≠ some transition ∧ (c.animations.lookup transition).isSome then
          ACswitchTo transition { c with pendingAnim := some animName }
        else
          ACswitchTo animName { c with pendingAnim := none }
    | none => ACswitchTo animName { c with pendingAnim := none }

/-- The `while (this.elapsed >= anim.frameDuration)` loop; `fuel` is the
exact iteration count `⌊elapsed / frameDuration⌋` computed by the caller. -/
def acLoop {α : Type} (anim : AnimationDef) :
    ℕ → AnimationController α → AnimationController α
  | 0, c => c
  | fuel + 1, c =>
      if anim.frameDuration ≤ c.elapsed then
        let c1 := { c with
          elapsed := c.elapsed - anim.frameDuration
          currentFrameIndex := c.currentFrameIndex + 1 }
        if anim.frames.length ≤ c1.currentFrameIndex then
          if anim.loop then acLoop anim fuel { c1 with currentFrameIndex := 0 }
          else
            let c2 := { c1 with
              currentFrameIndex := anim.frames.length - 1
              finished := true }
            match c2.pendingAnim with
            | some nxt => ACswitchTo nxt { c2 with pendingAnim := none }
            | none => c2
        else acLoop anim fuel c1
      else c

def ACupdate {α : Type} (dt : ℚ) (c : AnimationController α) : AnimationController α :=
  match c.currentAnim with
  | none => c
  | some name =>
      if c.finished then c
      else
        match c.animations.lookup name with
        | none => c
        | some anim =>
            if anim.frames.length = 0 then c
            else
              acLoop anim (⌊(c.elapsed + dt) / anim.frameDuration⌋.toNat)
                { c with elapsed := c.elapsed + dt }

def ACgetCurrentFrame {α : Type} (c : AnimationController α) : Option α :=
  match c.currentAnim with
  | none => none
  | some name =>
      match c.animations.lookup name with
      | none => none
      | some anim =>
          if anim.frames.length = 0 then none
          else
            match anim.frames.get? c.currentFrameIndex with
            | none => none
            | some key => c.sheet.lookup key

def ACisFinished {α : Type} (c : AnimationController α) : Bool := c.finished

/-! ## LpcAnimator (engine/types.ts, imageSprite module) -/

structure LpcAnimationDef where
  sheet : String
  /-- direction row index (the `LpcDirection` enum value 0..3) -/
  direction : ℕ
  startFrame : ℕ
  frameCount : ℕ
  frameDuration : ℚ
  loop : Bool
deriving DecidableEq, Repr

structure LpcAnimator where
  currentAnim : Option LpcAnimationDef
  currentAnimName : String
  animTime : ℚ
  currentFrame : ℕ
  animations : List (String × LpcAnimationDef)
  finished : Bool
deriving DecidableEq, Repr

def LpcAnimator.init : LpcAnimator :=
  { currentAnim := none
    currentAnimName := ""
    animTime := 0
    currentFrame := 0
    animations := []
    finished := false }

def LpcAnimator.defineAnimation (name : String) (d : LpcAnimationDef)
    (a : LpcAnimator) : LpcAnimator :=
  { a with animations := (name, d) :: a.animations }

def LpcAnimator.play (name : String) (a : LpcAnimator) : LpcAnimator :=
  if name = a.currentAnimName ∧ a.finished = false then a
  else
    match a.animations.lookup name with
    | none => a
    | some anim =>
        { a with
          currentAnim := some anim
          currentAnimName := name
          animTime := 0
          currentFrame := 0
          finished := false }

/-- Unlike `AnimationController.update`, this uses a single `if`, not a
`while`: at most one frame duration is consumed per call. -/
def LpcAnimator.update (dt : ℚ) (a : LpcAnimator) : LpcAnimator :=
  match a.currentAnim with
  | none => a
  | some anim =>
      if a.finished then a
      else
        if anim.frameDuration ≤ a.animTime + dt then
          if anim.frameCount ≤ a.currentFrame + 1 then
            if anim.loop then
              { a with animTime := a.animTime + dt - anim.frameDuration, currentFrame := 0 }
            else
              { a with
                animTime := a.animTime + dt - anim.frameDuration
                currentFrame := anim.frameCount - 1
                finished := true }
          else
            { a with
              animTime := a.animTime + dt - anim.frameDuration
              currentFrame := a.currentFrame + 1 }
        else { a with animTime := a.animTime + dt }

def LpcAnimator.getCurrentColumn (a : LpcAnimator) : ℕ :=
  match a.currentAnim with
  | none => 0
  | some anim => anim.startFrame + a.currentFrame

/-- In looping mode the while-loop consumes one `frameDuration` per frame
step: starting from `elapsed = k·frameDuration` it performs exactly `k`
steps, advancing the frame index by `k` modulo the frame count. -/
theorem acLoop_loop_advance {α : Type} (anim : AnimationDef) (k : ℕ) :
    ∀ (fuel : ℕ) (c : AnimationController α), anim.loop = true →
      0 < anim.frameDuration → 0 < anim.frames.length → k ≤ fuel →
      c.elapsed = k * anim.frameDuration →
      c.currentFrameIndex < anim.frames.length →
      acLoop anim fuel c =
        { c with
          elapsed := 0
          currentFrameIndex := (c.currentFrameIndex + k) % anim.frames.length } := by
  induction k with
  | zero =>
      intro fuel c hl hd hn hk he hi
      have he0 : c.elapsed = 0 := by rw [he]; push_cast; ring
      have hcond : ¬ anim.frameDuration ≤ c.elapsed := by
        rw [he0]; exact not_le.mpr hd
      have hrhs : ({ c with
          elapsed := 0
          currentFrameIndex := (c.currentFrameIndex + 0) % anim.frames.length } :
          AnimationController α) = c := by
        rw [Nat.add_zero, Nat.mod_eq_of_lt hi, ← he0]
      rw [hrhs]
      cases fuel with
      | zero => rfl
      | succ f =>
          unfold acLoop
          rw [if_neg hcond]
  | succ m ih =>
      intro fuel c hl hd hn hk he hi
      obtain ⟨f, rfl⟩ : ∃ f, fuel = f + 1 := ⟨fuel - 1, by omega⟩
      have hmfd : (0 : ℚ) ≤ (m : ℚ) * anim.frameDuration := by positivity
      have hcond : anim.frameDuration ≤ c.elapsed := by
        rw [he]; push_cast; nlinarith
      have he1 : c.elapsed - anim.frameDuration = (m : ℚ) * anim.frameDuration := by
        rw [he]; push_cast; ring
      unfold acLoop
      rw [if_pos hcond]
      by_cases hend : anim.frames.length ≤ c.currentFrameIndex + 1
      · have heqn : c.currentFrameIndex + 1 = anim.frames.length := by omega
        rw [if_pos hend, hl]
        simp only [if_true]
        have hrec : acLoop anim f
            ({ c with
                elapsed := c.elapsed - anim.frameDuration
                currentFrameIndex := 0 } : AnimationController α) =
            { c with
              elapsed := 0
              currentFrameIndex := (0 + m) % anim.frames.length } :=
          ih f _ hl hd hn (by omega) he1 hn
        refine hrec.trans ?_
        congr 1
        rw [Nat.zero_add,
          show c.currentFrameIndex + (m + 1) = anim.frames.length + m from by omega,
          Nat.add_mod_left]
      · rw [if_neg hend]
        have hrec : acLoop anim f
            ({ c with
                elapsed := c.elapsed - anim.frameDuration
                currentFrameIndex := c.currentFrameIndex + 1 } : AnimationController α) =
            { c with
              elapsed := 0
              currentFrameIndex := (c.currentFrameIndex + 1 + m) % anim.frames.length } :=
          ih f _ hl hd hn (by omega) he1
            (by show c.currentFrameIndex + 1 < anim.frames.length; omega)
        refine hrec.trans ?_
        congr 1
        rw [show c.currentFrameIndex + 1 + m = c.currentFrameIndex + (m + 1) from by omega]

/-- C3 amended: the two players do NOT share the multi-frame stepping
behaviour. The procedural AnimationController steps once per whole
`frameDuration` consumed — one `update(k·frameDuration)` from a fresh
looping animation advances exactly `k` frames (mod frame count) — whereas
the sheet-based LpcAnimator consumes at most one `frameDuration` per call
and advances its frame counter by at most a single step however large
`dt` is. -/
theorem animation_frame_stepping :
    (∀ (α : Type) (c : AnimationController α) (name : String) (anim : AnimationDef)
        (k : ℕ),
      c.currentAnim = some name → c.finished = false →
      c.animations.lookup name = some anim → anim.loop = true →
      0 < anim.frameDuration → 0 < anim.frames.length →
      c.elapsed = 0 → c.currentFrameIndex = 0 →
      (ACupdate (k * anim.frameDuration) c).currentFrameIndex =
          k % anim.frames.length ∧
        (ACupdate (k * anim.frameDuration) c).elapsed = 0) ∧
    (∀ (a : LpcAnimator) (anim : LpcAnimationDef) (dt : ℚ),
      a.currentAnim = some anim → a.finished = false → 0 ≤ anim.frameDuration →
      a.animTime + dt - anim.frameDuration ≤ (LpcAnimator.update dt a).animTime ∧
        ((LpcAnimator.update dt a).currentFrame = a.currentFrame ∨
          (LpcAnimator.update dt a).currentFrame = a.currentFrame + 1 ∨
          (LpcAnimator.update dt a).currentFrame = 0 ∨
          (LpcAnimator.update dt a).currentFrame = anim.frameCount - 1)) := by
  constructor
  · intro α c name anim k hca hfin hlook hl hd hn he hidx
    have hne : ¬ anim.frames.length = 0 := by omega
    have hupd : ACupdate (k * anim.frameDuration) c =
        acLoop anim
          (⌊(c.elapsed + k * anim.frameDuration) / anim.frameDuration⌋.toNat)
          { c with elapsed := c.elapsed + k * anim.frameDuration } := by
      unfold ACupdate
      rw [hca]
      simp only [hlook, hfin, hne, Bool.false_eq_true, if_false, ite_false]
    have hfuel :
        (⌊(c.elapsed + (k : ℚ) * anim.frameDuration) / anim.frameDuration⌋).toNat = k := by
      rw [he, zero_add, mul_div_assoc, div_self (ne_of_gt hd), mul_one]
      simp
    have hstate : ({ c with elapsed := c.elapsed + (k : ℚ) * anim.frameDuration} :
        AnimationController α).elapsed = (k : ℚ) * anim.frameDuration := by
      show c.elapsed + _ = _
      rw [he, zero_add]
    have hmain := acLoop_loop_advance anim k k
      ({ c with elapsed := c.elapsed + (k : ℚ) * anim.frameDuration } :
        AnimationController α)
      hl hd hn le_rfl hstate
      (by show c.currentFrameIndex < anim.frames.length; omega)
    rw [hupd, hfuel, hmain]
    constructor
    · show (c.currentFrameIndex + k) % anim.frames.length = k % anim.frames.length
      rw [hidx, Nat.zero_add]
    · rfl
  · intro a anim dt hca hfin hd
    unfold LpcAnimator.update
    rw [hca]
    simp only [hfin, Bool.false_eq_true, if_false, ite_false]
    by_cases h1 : anim.frameDuration ≤ a.animTime + dt
    · rw [if_pos h1]
      by_cases h2 : anim.frameCount ≤ a.currentFrame + 1
      · rw [if_pos h2]
        cases hb : anim.loop
        · rw [if_neg (by simp [hb])]
          exact ⟨le_refl _, Or.inr (Or.inr (Or.inr rfl))⟩
        · rw [if_pos (by simp [hb])]
          exact ⟨le_refl _, Or.inr (Or.inr (Or.inl rfl))⟩
      · rw [if_neg h2]
        exact ⟨le_refl _, Or.inr (Or.inl rfl)⟩
    · rw [if_neg h1]
      refine ⟨?_, Or.inl rfl⟩
      show a.animTime + dt - anim.frameDuration ≤ a.animTime + dt
      linarith

/-- 6-frame looping walk cycle at 0.1 s per frame (sheet-based). -/
def lpcWalkAnim : LpcAnimationDef :=
  { sheet := "walkcycle", direction := 3, startFrame := 0, frameCount := 6
    frameDuration := 1/10, loop := true }

def lpcSample : LpcAnimator :=
  LpcAnimator.play "walk" (LpcAnimator.defineAnimation "walk" lpcWalkAnim LpcAnimator.init)

/-- 6-frame looping walk cycle at 0.1 s per frame (procedural). -/
def acWalkAnim : AnimationDef :=
  { frames := ["f0", "f1", "f2", "f3", "f4", "f5"], frameDuration := 1/10, loop := true }

def acLoopingSample : AnimationController ℕ :=
  ACplay "walk" (AnimationController.init [] [("walk", acWalkAnim)])

theorem lpcSample_eval : lpcSample =
    { currentAnim := some lpcWalkAnim
      currentAnimName := "walk"
      animTime := 0
      currentFrame := 0
      animations := [("walk", lpcWalkAnim)]
      finished := false } := rfl

theorem acLoopingSample_eval : acLoopingSample =
    { sheet := []
      animations := [("walk", acWalkAnim)]
      currentAnim := some "walk"
      currentFrameIndex := 0
      elapsed := 0
      finished := false
      pendingAnim := none
      transitionMap := [] } := rfl

/-- C3 counterexample: with `dt` spanning three frame durations, the
LpcAnimator advances only one frame (not three), while the procedural
AnimationController does advance three — the claimed common behaviour
fails for the sheet-based player. -/
theorem lpc_large_dt_single_frame :
    (LpcAnimator.update (3/10) lpcSample).currentFrame = 1 ∧
      (1 : ℕ) ≠ 3 ∧
      (ACupdate (3/10) acLoopingSample).currentFrameIndex = 3 := by
  refine ⟨?_, by norm_num, ?_⟩
  · rw [lpcSample_eval]
    norm_num [LpcAnimator.update, lpcWalkAnim]
  · have h := animation_frame_stepping.1 ℕ acLoopingSample "walk" acWalkAnim 3
      rfl rfl rfl rfl (by norm_num [acWalkAnim]) (by norm_num [acWalkAnim]) rfl rfl
    have h3 : ((3 : ℕ) : ℚ) * acWalkAnim.frameDuration = 3/10 := by
      norm_num [acWalkAnim]
    rw [h3] at h
    rw [h.1]
    norm_num [acWalkAnim]

theorem animation_frame_stepping_witness :
    ((ACupdate (((7 : ℕ) : ℚ) * acWalkAnim.frameDuration) acLoopingSample).currentFrameIndex =
        7 % acWalkAnim.frames.length ∧
      (ACupdate (((7 : ℕ) : ℚ) * acWalkAnim.frameDuration) acLoopingSample).elapsed = 0) ∧
      (lpcSample.animTime + 3/10 - lpcWalkAnim.frameDuration ≤
          (LpcAnimator.update (3/10) lpcSample).animTime ∧
        ((LpcAnimator.update (3/10) lpcSample).currentFrame = lpcSample.currentFrame ∨
          (LpcAnimator.update (3/10) lpcSample).currentFrame = lpcSample.currentFrame + 1 ∨
          (LpcAnimator.update (3/10) lpcSample).currentFrame = 0 ∨
          (LpcAnimator.update (3/10) lpcSample).currentFrame = lpcWalkAnim.frameCount - 1)) :=
  ⟨animation_frame_stepping.1 ℕ acLoopingSample "walk" acWalkAnim 7
      rfl rfl rfl rfl (by norm_num [acWalkAnim]) (by norm_num [acWalkAnim]) rfl rfl,
    animation_frame_stepping.2 lpcSample lpcWalkAnim (3/10)
      rfl rfl (by norm_num [lpcWalkAnim])⟩

/-- 6-frame non-looping animation at 0.1 s per frame, with a sheet so
`getCurrentFrame` resolves sprites (payload type `ℕ`). -/
def acNonloopAnim : AnimationDef :=
  { frames := ["g0", "g1", "g2", "g3", "g4", "g5"], frameDuration := 1/10, loop := false }

def acSheet : List (String × ℕ) :=
  [("g0", 0), ("g1", 1), ("g2", 2), ("g3", 3), ("g4", 4), ("g5", 5)]

def acSixFrame : AnimationController ℕ :=
  ACplay "anim" (AnimationController.init acSheet [("anim", acNonloopAnim)])

/-- Intermediate literal state after `k` updates of 0.1 s (`k ≤ 5`). -/
def acSixAt (k : ℕ) : AnimationController ℕ :=
  { sheet := acSheet
    animations := [("anim", acNonloopAnim)]
    currentAnim := some "anim"
    currentFrameIndex := k
    elapsed := 0
    finished := false
    pendingAnim := none
    transitionMap := [] }

theorem acSixFrame_eval : acSixFrame = acSixAt 0 := rfl

theorem acSix_step (k : ℕ) (hk : k < 5) :
    ACupdate (1/10) (acSixAt k) = acSixAt (k + 1) := by
  interval_cases k <;>
    · norm_num [ACupdate, acSixAt, acLoop, acNonloopAnim, acSheet]

theorem acSix_final :
    ACupdate (1/10) (acSixAt 5) =
      { acSixAt 5 with elapsed := 0, finished := true } := by
  norm_num [ACupdate, acSixAt, acLoop, acNonloopAnim, acSheet]

/-- C9: a non-looping 6-frame animation with 0.1 s frames driven by
0.1 s updates is unfinished after each of the first five updates, becomes
finished exactly on the sixth, and from then on every further `update`
(of any `dt`) leaves the state — hence `getCurrentFrame`, frozen on the
last frame — unchanged. -/
theorem acSixFrame_finishes_exactly_after_sixth :
    ((ACupdate (1/10))^[5] acSixFrame).finished = false ∧
      ((ACupdate (1/10))^[6] acSixFrame).finished = true ∧
      ACgetCurrentFrame ((ACupdate (1/10))^[6] acSixFrame) = some 5 ∧
      (∀ dt : ℚ, ACupdate dt ((ACupdate (1/10))^[6] acSixFrame) =
        (ACupdate (1/10))^[6] acSixFrame) ∧
      (∀ k : ℕ, k ≤ 5 → ((ACupdate (1/10))^[k] acSixFrame).finished = false) := by
  have hiter : ∀ k : ℕ, k ≤ 5 → (ACupdate (1/10))^[k] acSixFrame = acSixAt k := by
    intro k hk
    induction k with
    | zero => exact acSixFrame_eval.symm ▸ rfl
    | succ m ih =>
        rw [Function.iterate_succ_apply', ih (by omega), acSix_step m (by omega)]
  have h6 : (ACupdate (1/10))^[6] acSixFrame =
      { acSixAt 5 with elapsed := 0, finished := true } := by
    rw [show (6 : ℕ) = 5 + 1 from rfl, Function.iterate_succ_apply', hiter 5 le_rfl,
      acSix_final]
  refine ⟨?_, ?_, ?_, ?_, ?_⟩
  · rw [hiter 5 le_rfl]
    rfl
  · rw [h6]
  · rw [h6]
    rfl
  · intro dt
    rw [h6]
    rfl
  · intro k hk
    rw [hiter k hk]
    rfl

theorem acSixFrame_finishes_exactly_after_sixth_witness :
    ((ACupdate (1/10))^[3] acSixFrame).finished = false ∧
      ACupdate 7 ((ACupdate (1/10))^[6] acSixFrame) = (ACupdate (1/10))^[6] acSixFrame :=
  ⟨acSixFrame_finishes_exactly_after_sixth.2.2.2.2 3 (by norm_num),
    acSixFrame_finishes_exactly_after_sixth.2.2.2.1 7⟩

/-! ## CharacterController (characters/CharacterController.ts) -/

/-- Pixels per second in world coordinates. -/
def WALK_SPEED : ℚ := 60

/-- Distance threshold (in world pixels) to consider "arrived". -/
def ARRIVE_THRESHOLD : ℚ := 2

inductive Facing where
  | left
  | right
deriving DecidableEq, Repr

structure CharacterController (α : Type) where
  position : ℚ × ℚ
  targetPosition : ℚ × ℚ
  currentState : String
  /-- the `type : CharacterType` field -/
  ctype : String
  facing : Facing
  animator : AnimationController α
  walking : Bool
  actionPositions : List (String × (ℚ × ℚ))
  lpcAnimator : Option LpcAnimator

/-- The constructor; the sheet/animation tables stand in for
`getCharacterAssets(type)`. -/
def CharacterController.create {α : Type} (ctype : String) (startPosition : ℚ × ℚ)
    (sheet : List (String × α)) (anims : List (String × AnimationDef)) :
    CharacterController α :=
  { position := startPosition
    targetPosition := startPosition
    currentState := "idle"
    ctype := ctype
    facing := .right
    animator := ACplay "idle" (AnimationController.init sheet anims)
    walking := false
    actionPositions := []
    lpcAnimator := none }

def CCsetActionPositions {α : Type} (positions : List (String × (ℚ × ℚ)))
    (c : CharacterController α) : CharacterController α :=
  { c with actionPositions := positions }

/-- Euclidean distance from position to target, as the code computes it
(`Math.sqrt(dx*dx + dy*dy)`). -/
def CCdist {α : Type} (c : CharacterController α) : ℚ :=
  Rat.sqrt ((c.targetPosition.1 - c.position.1) * (c.targetPosition.1 - c.position.1) +
    (c.targetPosition.2 - c.position.2) * (c.targetPosition.2 - c.position.2))

def playLpcWalk {α : Type} (c : CharacterController α) : CharacterController α :=
  match c.lpcAnimator with
  | none => c
  | some a =>
      { c with lpcAnimator := some (LpcAnimator.play (if c.facing = Facing.left then "exit" else "enter") a) }

def playLpcState {α : Type} (state : String) (c : CharacterController α) :
    CharacterController α :=
  match c.lpcAnimator with
  | none => c
  | some a => { c with lpcAnimator := some (LpcAnimator.play state a) }

def CCsetState {α : Type} (state : String) (c0 : CharacterController α) :
    CharacterController α :=
  match c0.actionPositions.lookup state with
  | some target =>
      if ARRIVE_THRESHOLD <
          Rat.sqrt ((target.1 - c0.position.1) * (target.1 - c0.position.1) +
            (target.2 - c0.position.2) * (target.2 - c0.position.2)) then
        playLpcWalk
          (if target.1 - c0.position.1 ≠ 0 then
            { c0 with
              currentState := state
              targetPosition := target
              walking := true
              facing := if 0 < target.1 - c0.position.1 then Facing.right else Facing.left
              animator := ACplay "walk" c0.animator }
          else
            { c0 with
              currentState := state
              targetPosition := target
              walking := true
              animator := ACplay "walk" c0.animator })
      else
        playLpcState state
          { c0 with
            currentState := state
            targetPosition := target
            walking := false
            animator := ACplay state c0.animator }
  | none =>
      playLpcState state
        { c0 with
          currentState := state
          walking := false
          animator := ACplay state c0.animator }

/-- The walking block of `update(dt)`. -/
def CCwalkTick {α : Type} (dt : ℚ) (c : CharacterController α) : CharacterController α :=
  if c.walking then
    if CCdist c ≤ ARRIVE_THRESHOLD then
      playLpcState c.currentState
        { c with
          position := c.targetPosition
          walking := false
          animator := ACplay c.currentState c.animator }
    else if CCdist c ≤ WALK_SPEED * dt then
      playLpcState c.currentState
        { c with
          position := c.targetPosition
          walking := false
          animator := ACplay c.currentState c.animator }
    else
      if c.targetPosition.1 - c.position.1 ≠ 0 then
        { c with
          position :=
            (c.position.1 + (c.targetPosition.1 - c.position.1) / CCdist c * (WALK_SPEED * dt),
             c.position.2 + (c.targetPosition.2 - c.position.2) / CCdist c * (WALK_SPEED * dt))
          facing := if 0 < c.targetPosition.1 - c.position.1 then Facing.right else Facing.left }
      else
        { c with
          position :=
            (c.position.1 + (c.targetPosition.1 - c.position.1) / CCdist c * (WALK_SPEED * dt),
             c.position.2 + (c.targetPosition.2 - c.position.2) / CCdist c * (WALK_SPEED * dt)) }
  else c

/-- The trailing `animator.update(dt); lpcAnimator?.update(dt)` of `update(dt)`. -/
def CCanimTick {α : Type} (dt : ℚ) (c : CharacterController α) : CharacterController α :=
  { c with
    animator := ACupdate dt c.animator
    lpcAnimator := c.lpcAnimator.map (LpcAnimator.update dt) }

def CCupdate {α : Type} (dt : ℚ) (c : CharacterController α) : CharacterController α :=
  CCanimTick dt (CCwalkTick dt c)

def runCC {α : Type} (dts : List ℚ) (c : CharacterController α) : CharacterController α :=
  dts.foldl (fun acc d => CCupdate d acc) c

/-- The spec's scenario: a fresh character at the origin, a `read` action
position 50 world units away (axis-aligned), `setState('read')` issued. -/
def ccScenario : CharacterController ℕ :=
  CCsetState "read"
    (CCsetActionPositions [("read", ((50 : ℚ), (0 : ℚ)))]
      (CharacterController.create "hunter" ((0 : ℚ), (0 : ℚ)) [] []))

theorem ratSqrt_2500 : Rat.sqrt (2500 : ℚ) = 50 := by
  rw [show (2500 : ℚ) = 50 * 50 by norm_num, Rat.sqrt_eq]
  norm_num

theorem ratSqrt_4 : Rat.sqrt (4 : ℚ) = 2 := by
  rw [show (4 : ℚ) = 2 * 2 by norm_num, Rat.sqrt_eq]
  norm_num

theorem CCanimTick_walking {α : Type} (dt : ℚ) (c : CharacterController α) :
    (CCanimTick dt c).walking = c.walking := rfl

theorem CCanimTick_position {α : Type} (dt : ℚ) (c : CharacterController α) :
    (CCanimTick dt c).position = c.position := rfl

theorem CCanimTick_target {α : Type} (dt : ℚ) (c : CharacterController α) :
    (CCanimTick dt c).targetPosition = c.targetPosition := rfl

theorem playLpcState_walking {α : Type} (s : String) (c : CharacterController α) :
    (playLpcState s c).walking = c.walking := by
  unfold playLpcState
  split <;> rfl

theorem playLpcState_position {α : Type} (s : String) (c : CharacterController α) :
    (playLpcState s c).position = c.position := by
  unfold playLpcState
  split <;> rfl

theorem playLpcState_target {α : Type} (s : String) (c : CharacterController α) :
    (playLpcState s c).targetPosition = c.targetPosition := by
  unfold playLpcState
  split <;> rfl

/-- One-step arrival characterization: while walking, a single update
clears `walking` exactly when the remaining distance is within the
threshold or the frame's step covers it, and in that case the position is
snapped exactly onto the target. -/
theorem ccStep_arrival {α : Type} (dt : ℚ) (c : CharacterController α)
    (hw : c.walking = true) :
    (((CCupdate dt c).walking = false) ↔
        (CCdist c ≤ ARRIVE_THRESHOLD ∨ CCdist c ≤ WALK_SPEED * dt)) ∧
      ((CCupdate dt c).walking = false → (CCupdate dt c).position = c.targetPosition) := by
  unfold CCupdate
  rw [CCanimTick_walking, CCanimTick_position]
  unfold CCwalkTick
  rw [if_pos hw]
  by_cases h1 : CCdist c ≤ ARRIVE_THRESHOLD
  · rw [if_pos h1]
    refine ⟨⟨fun _ => Or.inl h1, fun _ => ?_⟩, fun _ => ?_⟩
    · rw [playLpcState_walking]
    · rw [playLpcState_position]
  · rw [if_neg h1]
    by_cases h2 : CCdist c ≤ WALK_SPEED * dt
    · rw [if_pos h2]
      refine ⟨⟨fun _ => Or.inr h2, fun _ => ?_⟩, fun _ => ?_⟩
      · rw [playLpcState_walking]
      · rw [playLpcState_position]
    · rw [if_neg h2]
      constructor
      · constructor
        · intro hfalse
          exfalso
          split at hfalse <;>
            · have hcw : c.walking = false := hfalse
              rw [hw] at hcw
              exact Bool.noConfusion hcw
        · intro hor
          rcases hor with h | h
          · exact absurd h h1
          · exact absurd h h2
      · intro hfalse
        exfalso
        split at hfalse <;>
          · have hcw : c.walking = false := hfalse
            rw [hw] at hcw
            exact Bool.noConfusion hcw

/-- Literal form of `ccScenario` after `setState('read')`: walking
towards (50, 0) from the origin. -/
def ccWalkState : CharacterController ℕ :=
  { position := ((0 : ℚ), (0 : ℚ))
    targetPosition := ((50 : ℚ), (0 : ℚ))
    currentState := "read"
    ctype := "hunter"
    facing := .right
    animator := AnimationController.init [] []
    walking := true
    actionPositions := [("read", ((50 : ℚ), (0 : ℚ)))]
    lpcAnimator := none }

theorem ccScenario_eval : ccScenario = ccWalkState := by
  norm_num [ccScenario, CCsetState, CCsetActionPositions, CharacterController.create,
    playLpcWalk, ACplay, ACswitchTo, AnimationController.init, List.lookup,
    ARRIVE_THRESHOLD, ratSqrt_2500, ccWalkState]

/-- Walking invariant for the 50-unit axis-aligned scenario: while
walking, the accumulated update time `t` fixes the position exactly at
`(60·t, 0)` with `60·t < 50`; once walking has stopped, at least
(50−2)/60 = 4/5 s have accumulated. -/
def ccInv (t : ℚ) (c : CharacterController ℕ) : Prop :=
  (c.walking = true →
      c.position = ((60 * t : ℚ), (0 : ℚ)) ∧
        c.targetPosition = ((50 : ℚ), (0 : ℚ)) ∧ 60 * t < 50) ∧
    (c.walking = false → 4/5 ≤ t)

theorem ccInv_init : ccInv 0 ccWalkState := by
  constructor
  · intro _
    refine ⟨?_, rfl, by norm_num⟩
    show ((0 : ℚ), (0 : ℚ)) = (60 * 0, 0)
    norm_num
  · intro hf
    exact absurd hf (by simp [ccWalkState])

theorem ccInv_step (t dt : ℚ) (c : CharacterController ℕ) (hdt : 0 ≤ dt)
    (h : ccInv t c) : ccInv (t + dt) (CCupdate dt c) := by
  rcases h with ⟨hwalk, hstop⟩
  by_cases hw : c.walking = true
  · obtain ⟨hp, ht, hlt⟩ := hwalk hw
    have hp1 : c.position.1 = 60 * t := by rw [hp]
    have hp2 : c.position.2 = 0 := by rw [hp]
    have ht1 : c.targetPosition.1 = 50 := by rw [ht]
    have ht2 : c.targetPosition.2 = 0 := by rw [ht]
    have hdx : (0 : ℚ) < 50 - 60 * t := by linarith
    have hdist : CCdist c = 50 - 60 * t := by
      unfold CCdist
      rw [hp1, hp2, ht1, ht2]
      rw [show ((50 : ℚ) - 60 * t) * (50 - 60 * t) + (0 - 0) * (0 - 0) =
        (50 - 60 * t) * (50 - 60 * t) from by ring]
      rw [Rat.sqrt_eq, abs_of_pos hdx]
    by_cases h1 : CCdist c ≤ ARRIVE_THRESHOLD
    · have harr : (CCupdate dt c).walking = false := by
        unfold CCupdate
        rw [CCanimTick_walking]
        unfold CCwalkTick
        rw [if_pos hw, if_pos h1, playLpcState_walking]
      refine ⟨fun h' => Bool.noConfusion (h'.symm.trans harr), fun _ => ?_⟩
      rw [hdist, ARRIVE_THRESHOLD] at h1
      linarith
    · by_cases h2 : CCdist c ≤ WALK_SPEED * dt
      · have harr : (CCupdate dt c).walking = false := by
          unfold CCupdate
          rw [CCanimTick_walking]
          unfold CCwalkTick
          rw [if_pos hw, if_neg h1, if_pos h2, playLpcState_walking]
        refine ⟨fun h' => Bool.noConfusion (h'.symm.trans harr), fun _ => ?_⟩
        rw [hdist, WALK_SPEED] at h2
        linarith
      · have hdxne : c.targetPosition.1 - c.position.1 ≠ 0 := by
          rw [ht1, hp1]
          exact ne_of_gt hdx
        have hmv : CCupdate dt c = CCanimTick dt
            { c with
              position :=
                (c.position.1 + (c.targetPosition.1 - c.position.1) / CCdist c *
                    (WALK_SPEED * dt),
                 c.position.2 + (c.targetPosition.2 - c.position.2) / CCdist c *
                    (WALK_SPEED * dt))
              facing := Facing.right } := by
          unfold CCupdate CCwalkTick
          rw [if_pos hw, if_neg h1, if_neg h2, if_pos hdxne,
            if_pos (show (0 : ℚ) < c.targetPosition.1 - c.position.1 from by
              rw [ht1, hp1]; exact hdx)]
        have hpos : (CCupdate dt c).position = ((60 * (t + dt) : ℚ), (0 : ℚ)) := by
          rw [hmv, CCanimTick_position]
          show (c.position.1 + (c.targetPosition.1 - c.position.1) / CCdist c *
              (WALK_SPEED * dt),
            c.position.2 + (c.targetPosition.2 - c.position.2) / CCdist c *
              (WALK_SPEED * dt)) = _
          rw [hp1, hp2, ht1, ht2, hdist, WALK_SPEED]
          simp only [Prod.mk.injEq]
          constructor
          · rw [div_self (ne_of_gt hdx)]
            ring
          · ring
        have hwk : (CCupdate dt c).walking = true := by
          rw [hmv, CCanimTick_walking]
          exact hw
        have htg : (CCupdate dt c).targetPosition = ((50 : ℚ), (0 : ℚ)) := by
          rw [hmv, CCanimTick_target]
          exact ht
        have hlt' : 60 * (t + dt) < 50 := by
          rw [hdist, WALK_SPEED] at h2
          push_neg at h2
          linarith
        exact ⟨fun _ => ⟨hpos, htg, hlt'⟩,
          fun hf => Bool.noConfusion (hf.symm.trans hwk)⟩
  · have hwf : c.walking = false := by
      cases hcw : c.walking
      · rfl
      · exact absurd hcw hw
    have hcw : (CCupdate dt c).walking = false := by
      unfold CCupdate
      rw [CCanimTick_walking]
      unfold CCwalkTick
      rw [if_neg (by rw [hwf]; simp)]
      exact hwf
    refine ⟨fun h' => Bool.noConfusion (h'.symm.trans hcw), fun _ => ?_⟩
    have := hstop hwf
    linarith

theorem ccInv_run (dts : List ℚ) (hdts : ∀ d ∈ dts, 0 ≤ d) :
    ∀ (t : ℚ) (c : CharacterController ℕ), ccInv t c →
      ccInv (t + dts.sum) (runCC dts c) := by
  induction dts with
  | nil =>
      intro t c h
      simpa [runCC] using h
  | cons d rest ih =>
      intro t c h
      have h1 := ccInv_step t d c (hdts d (by simp)) h
      have h2 := ih (fun x hx => hdts x (by simp [hx])) (t + d) _ h1
      rw [show runCC (d :: rest) c = runCC rest (CCupdate d c) from rfl]
      rw [show t + (d :: rest).sum = t + d + rest.sum from by
        simp [List.sum_cons]; ring]
      exact h2

/-- C4 amended: while walking, each update moves toward the target at
`WALK_SPEED`, and walking becomes false exactly at arrival (remaining
distance ≤ `ARRIVE_THRESHOLD` = 2, or the frame's step covers it) — never
before — with the position snapped exactly to the target. For the
scenario `setState('read')` with a target 50 units away, the 2-unit
threshold means idle-at-target can be reached only after at least
(50−2)/60 = 0.8 s of accumulated `update(dt)` calls (not 50/60 ≈ 0.84 s),
while walking can never persist to 50/60 s. -/
theorem cc_walk_arrival_characterization :
    (∀ dts : List ℚ, (∀ d ∈ dts, 0 ≤ d) →
      ((runCC dts ccScenario).walking = false → 4/5 ≤ dts.sum) ∧
        ((runCC dts ccScenario).walking = true → dts.sum < 50/60)) ∧
      (∀ (α : Type) (c : CharacterController α) (dt : ℚ), c.walking = true →
        (((CCupdate dt c).walking = false) ↔
            (CCdist c ≤ ARRIVE_THRESHOLD ∨ CCdist c ≤ WALK_SPEED * dt)) ∧
          ((CCupdate dt c).walking = false →
            (CCupdate dt c).position = c.targetPosition)) := by
  constructor
  · intro dts hdts
    have hrun := ccInv_run dts hdts 0 ccScenario (ccScenario_eval ▸ ccInv_init)
    rw [zero_add] at hrun
    constructor
    · exact fun hf => hrun.2 hf
    · intro hw
      have := (hrun.1 hw).2.2
      linarith
  · exact fun α c dt hw => ccStep_arrival dt c hw

/-- C4 counterexample: the run [0.8 s, 0.001 s] reaches idle-at-target
(walking = false, position exactly (50,0)) with an accumulated time of
0.801 s < 50/60 s ≈ 0.84 s, refuting the claimed 50/60 s lower bound. -/
theorem cc_arrives_before_fifty_sixtieths :
    (runCC [4/5, 1/1000] ccScenario).walking = false ∧
      (runCC [4/5, 1/1000] ccScenario).position = ((50 : ℚ), (0 : ℚ)) ∧
      ([4/5, 1/1000] : List ℚ).sum < 50/60 := by
  have hrun : runCC [4/5, 1/1000] ccScenario =
      CCupdate (1/1000) (CCupdate (4/5) ccWalkState) := by
    rw [show runCC [4/5, 1/1000] ccScenario =
      CCupdate (1/1000) (CCupdate (4/5) ccScenario) from rfl, ccScenario_eval]
  have hInv1 : ccInv (0 + 4/5) (CCupdate (4/5) ccWalkState) :=
    ccInv_step 0 (4/5) ccWalkState (by norm_num) ccInv_init
  have hd0 : CCdist ccWalkState = 50 := by
    unfold CCdist ccWalkState
    norm_num [ratSqrt_2500]
  have hw1 : (CCupdate (4/5) ccWalkState).walking = true := by
    have hnot : ¬ ((CCupdate (4/5) ccWalkState).walking = false) := by
      rw [(ccStep_arrival (4/5) ccWalkState rfl).1, hd0, ARRIVE_THRESHOLD, WALK_SPEED]
      norm_num
    cases hbool : (CCupdate (4/5) ccWalkState).walking
    · exact absurd hbool hnot
    · rfl
  obtain ⟨hp, ht, _⟩ := hInv1.1 hw1
  have hp1 : (CCupdate (4/5) ccWalkState).position.1 = 48 := by
    rw [hp]
    norm_num
  have hp2 : (CCupdate (4/5) ccWalkState).position.2 = 0 := by
    rw [hp]
  have ht1 : (CCupdate (4/5) ccWalkState).targetPosition.1 = 50 := by
    rw [ht]
  have ht2 : (CCupdate (4/5) ccWalkState).targetPosition.2 = 0 := by
    rw [ht]
  have hd1 : CCdist (CCupdate (4/5) ccWalkState) = 2 := by
    unfold CCdist
    rw [hp1, hp2, ht1, ht2,
      show ((50 : ℚ) - 48) * (50 - 48) + (0 - 0) * (0 - 0) = 2 * 2 by norm_num,
      Rat.sqrt_eq]
    norm_num
  have harr := ccStep_arrival (1/1000) (CCupdate (4/5) ccWalkState) hw1
  have hw2 : (CCupdate (1/1000) (CCupdate (4/5) ccWalkState)).walking = false :=
    harr.1.mpr (Or.inl (by rw [hd1, ARRIVE_THRESHOLD]))
  refine ⟨?_, ?_, by norm_num⟩
  · rw [hrun]
    exact hw2
  · rw [hrun, harr.2 hw2, ht]

theorem cc_walk_arrival_characterization_witness :
    (CCupdate 1 ccScenario).walking = false ∧
      (CCupdate 1 ccScenario).position = ccScenario.targetPosition := by
  have h := cc_walk_arrival_characterization.2 ℕ ccScenario 1
    (by rw [ccScenario_eval]; rfl)
  have hdist : CCdist ccScenario = 50 := by
    rw [ccScenario_eval]
    unfold CCdist ccWalkState
    norm_num [ratSqrt_2500]
  have hfalse : (CCupdate 1 ccScenario).walking = false :=
    h.1.mpr (Or.inr (by rw [hdist, WALK_SPEED]; norm_num))
  exact ⟨hfalse, h.2 hfalse⟩

/-! ## ParticleSystem (engine/particles.ts) -/

structure Particle where
  x : ℚ
  y : ℚ
  vx : ℚ
  vy : ℚ
  color : String
  alpha : ℚ
  life : ℚ
  maxLife : ℚ
  size : ℚ
  alphaMax : ℚ
  active : Bool
deriving DecidableEq, Repr

structure ParticleEmitterConfig where
  x : ℚ
  y : ℚ
  rate : ℚ
  spread : ℚ
  angle : ℚ
  speedMin : ℚ
  speedMax : ℚ
  colors : List String
  lifetimeMin : ℚ
  lifetimeMax : ℚ
  gravity : ℚ
  sizeMin : ℚ
  sizeMax : ℚ
  maxParticles : ℕ
  alphaMax : Option ℚ
deriving DecidableEq, Repr

/-- Injected `Math` oracles: the stream of `Math.random()` draws and the
trigonometric functions. Every theorem below holds for every environment. -/
structure MathEnv where
  rand : ℕ → ℚ
  cos : ℚ → ℚ
  sin : ℚ → ℚ

def createDeadParticle : Particle :=
  { x := 0, y := 0, vx := 0, vy := 0, color := "#fff", alpha := 1, life := 0
    maxLife := 1, size := 1, alphaMax := 1, active := false }

structure PSState where
  pool : List Particle
  emitters : List ParticleEmitterConfig
  accumulators : List ℚ
  /-- index of the next `Math.random()` draw in the stream -/
  rngIdx : ℕ
  /-- instrumentation: number of `spawnParticle` calls -/
  spawnAttempts : ℕ
  /-- instrumentation: number of particles actually activated -/
  spawnCount : ℕ

def psInit (maxPoolSize : ℕ) : PSState :=
  { pool := List.replicate maxPoolSize createDeadParticle
    emitters := []
    accumulators := []
    rngIdx := 0
    spawnAttempts := 0
    spawnCount := 0 }

def addEmitter (config : ParticleEmitterConfig) (s : PSState) : PSState :=
  { s with
    emitters := s.emitters ++ [config]
    accumulators := s.accumulators ++ [0] }

def spawnParticle (env : MathEnv) (config : ParticleEmitterConfig) (s : PSState) :
    PSState :=
  match s.pool.findIdx? (fun p => !p.active) with
  | none => { s with spawnAttempts := s.spawnAttempts + 1 }
  | some i =>
      { s with
        pool := s.pool.set i
          { x := config.x + (env.rand (s.rngIdx + 3) - 1/2) * 4
            y := config.y + (env.rand (s.rngIdx + 4) - 1/2) * 4
            vx := env.cos (config.angle + (env.rand s.rngIdx - 1/2) * config.spread) *
              (config.speedMin + env.rand (s.rngIdx + 1) * (config.speedMax - config.speedMin))
            vy := env.sin (config.angle + (env.rand s.rngIdx - 1/2) * config.spread) *
              (config.speedMin + env.rand (s.rngIdx + 1) * (config.speedMax - config.speedMin))
            color := config.colors.getD
              (⌊env.rand (s.rngIdx + 5) * config.colors.length⌋).toNat "#fff"
            alpha := 1
            life := 1
            maxLife := config.lifetimeMin +
              env.rand (s.rngIdx + 2) * (config.lifetimeMax - config.lifetimeMin)
            size := config.sizeMin +
              env.rand (s.rngIdx + 6) * (config.sizeMax - config.sizeMin)
            alphaMax := config.alphaMax.getD 1
            active := true }
        rngIdx := s.rngIdx + 7
        spawnAttempts := s.spawnAttempts + 1
        spawnCount := s.spawnCount + 1 }

def burst (env : MathEnv) (config : ParticleEmitterConfig) :
    ℕ → PSState → PSState
  | 0, s => s
  | n + 1, s => burst env config n (spawnParticle env config s)

/-- The `while (accumulators[i] >= 1)` loop; the fuel `⌊a⌋.toNat` is the
exact iteration count for the nonnegative accumulators the engine builds. -/
def drain (env : MathEnv) (config : ParticleEmitterConfig) :
    ℕ → ℚ → PSState → ℚ × PSState
  | 0, a, s => (a, s)
  | fuel + 1, a, s =>
      if 1 ≤ a then drain env config fuel (a - 1) (spawnParticle env config s)
      else (a, s)

/-- The per-emitter emission pass of `update(dt)`; the mismatched-length
case is unreachable for states built through `addEmitter`. -/
def emitPass (env : MathEnv) (dt : ℚ) :
    List ParticleEmitterConfig → List ℚ → PSState → List ℚ × PSState
  | [], _, s => ([], s)
  | config :: cs, a :: accs, s =>
      let r := drain env config (⌊a + config.rate * dt⌋).toNat (a + config.rate * dt) s
      let rest := emitPass env dt cs accs r.2
      (r.1 :: rest.1, rest.2)
  | _ :: _, [], s => ([], s)

def stepParticle (gravity dt : ℚ) (p : Particle) : Particle :=
  if !p.active then p
  else if p.life - dt / p.maxLife ≤ 0 then
    { p with life := p.life - dt / p.maxLife, active := false }
  else
    { p with
      life := p.life - dt / p.maxLife
      vy := p.vy + gravity * dt
      x := p.x + p.vx * dt
      y := p.y + (p.vy + gravity * dt) * dt
      alpha := (p.life - dt / p.maxLife) * p.alphaMax }

/-- `this.emitters[0]?.gravity ?? 0`: the gravity applied to the whole
pool is read from the first emitter. -/
def headGravity : List ParticleEmitterConfig → ℚ
  | [] => 0
  | c :: _ => c.gravity

def psUpdate (env : MathEnv) (dt : ℚ) (s : PSState) : PSState :=
  { pool := ((emitPass env dt s.emitters s.accumulators s).2).pool.map
      (stepParticle
        (headGravity (emitPass env dt s.emitters s.accumulators s).2.emitters) dt)
    emitters := (emitPass env dt s.emitters s.accumulators s).2.emitters
    accumulators := (emitPass env dt s.emitters s.accumulators s).1
    rngIdx := (emitPass env dt s.emitters s.accumulators s).2.rngIdx
    spawnAttempts := (emitPass env dt s.emitters s.accumulators s).2.spawnAttempts
    spawnCount := (emitPass env dt s.emitters s.accumulators s).2.spawnCount }

def countActive (pool : List Particle) : ℕ :=
  pool.countP (fun p => p.active)

theorem spawnParticle_attempts (env : MathEnv) (config : ParticleEmitterConfig)
    (s : PSState) :
    (spawnParticle env config s).spawnAttempts = s.spawnAttempts + 1 := by
  unfold spawnParticle
  split <;> rfl

theorem spawnParticle_pool_length (env : MathEnv) (config : ParticleEmitterConfig)
    (s : PSState) :
    (spawnParticle env config s).pool.length = s.pool.length := by
  unfold spawnParticle
  split
  · rfl
  · simp [List.length_set]

theorem spawnParticle_emitters (env : MathEnv) (config : ParticleEmitterConfig)
    (s : PSState) :
    (spawnParticle env config s).emitters = s.emitters := by
  unfold spawnParticle
  split <;> rfl

theorem spawnParticle_accumulators (env : MathEnv) (config : ParticleEmitterConfig)
    (s : PSState) :
    (spawnParticle env config s).accumulators = s.accumulators := by
  unfold spawnParticle
  split <;> rfl

theorem findIdx?_isSome_of_countActive_lt (pool : List Particle)
    (h : countActive pool < pool.length) :
    (pool.findIdx? (fun p => !p.active)).isSome := by
  induction pool with
  | nil => simp [countActive] at h
  | cons p ps ih =>
      by_cases hp : p.active
      · have h' : countActive ps < ps.length := by
          simpa [countActive, List.countP_cons, hp] using h
        have := ih h'
        simp only [List.findIdx?_cons, hp]
        simpa [List.findIdx?_start_succ, Option.isSome_map] using this
      · simp [List.findIdx?_cons, hp]

theorem spawnParticle_success (env : MathEnv) (config : ParticleEmitterConfig)
    (s : PSState) (h : countActive s.pool < s.pool.length) :
    (spawnParticle env config s).spawnCount = s.spawnCount + 1 := by
  unfold spawnParticle
  rcases hf : s.pool.findIdx? (fun p => !p.active) with _ | i
  · have := findIdx?_isSome_of_countActive_lt s.pool h
    rw [hf] at this
    simp at this
  · rw [hf]

theorem spawnParticle_failure (env : MathEnv) (config : ParticleEmitterConfig)
    (s : PSState) (h : countActive s.pool = s.pool.length) :
    spawnParticle env config s = { s with spawnAttempts := s.spawnAttempts + 1 } := by
  unfold spawnParticle
  have hall : ∀ p ∈ s.pool, p.active = true := List.countP_eq_length.mp h
  have hnone : s.pool.findIdx? (fun p => !p.active) = none := by
    rw [List.findIdx?_eq_none_iff]
    intro p hp
    simp [hall p hp]
  rw [hnone]

theorem countActive_set_le (pool : List Particle) (i : ℕ) (p : Particle) :
    countActive (pool.set i p) ≤ countActive pool + 1 := by
  induction pool generalizing i with
  | nil => simp [countActive]
  | cons q qs ih =>
      cases i with
      | zero =>
          simp only [List.set, countActive, List.countP_cons]
          have : List.countP (fun r => r.active) qs ≤
              List.countP (fun r => r.active) qs + if q.active then 1 else 0 := by
            split <;> omega
          split <;> omega
      | succ j =>
          simp only [List.set, countActive, List.countP_cons]
          have := ih j
          simp only [countActive] at this
          split <;> omega

theorem spawnParticle_countActive (env : MathEnv) (config : ParticleEmitterConfig)
    (s : PSState) (h : countActive s.pool ≤ s.spawnCount) :
    countActive (spawnParticle env config s).pool ≤
      (spawnParticle env config s).spawnCount := by
  unfold spawnParticle
  rcases hf : s.pool.findIdx? (fun p => !p.active) with _ | i
  · rw [hf]
    exact h
  · rw [hf]
    calc countActive (s.pool.set i _) ≤ countActive s.pool + 1 := countActive_set_le ..
      _ ≤ s.spawnCount + 1 := by omega

/-- Full specification of the accumulator `while` loop with exact fuel
`⌊a⌋.toNat`: it performs exactly `⌊a⌋` spawn attempts, leaves `a - ⌊a⌋`
in the accumulator, preserves the pool size, and — when the pool can hold
all attempts — every attempt succeeds. -/
theorem drain_spec (env : MathEnv) (config : ParticleEmitterConfig) (n : ℕ) :
    ∀ (a : ℚ) (s : PSState), 0 ≤ a → (⌊a⌋).toNat = n →
      (drain env config n a s).1 = a - n ∧
        (drain env config n a s).2.spawnAttempts = s.spawnAttempts + n ∧
        (drain env config n a s).2.pool.length = s.pool.length ∧
        (drain env config n a s).2.emitters = s.emitters ∧
        (drain env config n a s).2.accumulators = s.accumulators ∧
        (countActive s.pool ≤ s.spawnCount →
          countActive (drain env config n a s).2.pool ≤
              (drain env config n a s).2.spawnCount ∧
            (s.spawnCount + n ≤ s.pool.length →
              (drain env config n a s).2.spawnCount = s.spawnCount + n)) := by
  induction n with
  | zero =>
      intro a s ha hfl
      exact ⟨by simp [drain], rfl, rfl, rfl, rfl, fun hI => ⟨hI, fun _ => rfl⟩⟩
  | succ m ih =>
      intro a s ha hfl
      have h0 : (0 : ℤ) ≤ ⌊a⌋ := Int.floor_nonneg.mpr ha
      have hfl1 : ⌊a⌋ = ((m : ℤ) + 1) := by omega
      have ha1 : (1 : ℚ) ≤ a := by
        have h1 : (1 : ℤ) ≤ ⌊a⌋ := by omega
        exact_mod_cast Int.le_floor.mp h1
      have hfl2 : (⌊a - 1⌋).toNat = m := by
        have hsub : ⌊a - 1⌋ = ⌊a⌋ - 1 := by
          rw [show (1 : ℚ) = ((1 : ℤ) : ℚ) from by norm_num, Int.floor_sub_int]
        rw [hsub, hfl1]
        omega
      have ha2 : (0 : ℚ) ≤ a - 1 := by linarith
      unfold drain
      rw [if_pos ha1]
      obtain ⟨H1, H2, H3, H4, H5, H6⟩ := ih (a - 1) (spawnParticle env config s) ha2 hfl2
      refine ⟨?_, ?_, ?_, ?_, ?_, ?_⟩
      · rw [H1]
        push_cast
        ring
      · rw [H2, spawnParticle_attempts]
        omega
      · rw [H3, spawnParticle_pool_length]
      · rw [H4, spawnParticle_emitters]
      · rw [H5, spawnParticle_accumulators]
      · intro hI
        have hI' := spawnParticle_countActive env config s hI
        obtain ⟨K1, K2⟩ := H6 hI'
        refine ⟨K1, fun hcap => ?_⟩
        have hsucc : (spawnParticle env config s).spawnCount = s.spawnCount + 1 :=
          spawnParticle_success env config s (by omega)
        rw [K2 (by rw [hsucc, spawnParticle_pool_length]; omega), hsucc]
        omega

theorem stepParticle_active_mono (g dt : ℚ) (p : Particle)
    (h : (stepParticle g dt p).active = true) : p.active = true := by
  unfold stepParticle at h
  split_ifs at h with h1 h2
  · exact h
  · exact h

theorem countActive_map_le (g dt : ℚ) (pool : List Particle) :
    countActive (pool.map (stepParticle g dt)) ≤ countActive pool := by
  induction pool with
  | nil => simp [countActive]
  | cons p ps ih =>
      simp only [List.map_cons, countActive, List.countP_cons] at *
      have key : (if (stepParticle g dt p).active = true then 1 else 0) ≤
          (if p.active = true then 1 else 0) := by
        by_cases hq : (stepParticle g dt p).active = true
        · rw [if_pos hq, if_pos (stepParticle_active_mono g dt p hq)]
        · rw [if_neg hq]
          split <;> omega
      omega

theorem countActive_replicate_dead (N : ℕ) :
    countActive (List.replicate N createDeadParticle) = 0 := by
  induction N with
  | zero => simp [countActive]
  | succ k ih =>
      simp [countActive, List.replicate_succ, List.countP_cons, createDeadParticle] at *

/-- Single-emitter run: after `n` constant-`dt` updates, the system has
made exactly `⌊n·rate·dt⌋` spawn attempts, holds the fractional remainder
in the accumulator, and — whenever the pool can hold all attempts — every
attempt has succeeded. -/
theorem psRun_single (env : MathEnv) (cfg : ParticleEmitterConfig) (N : ℕ) (dt : ℚ)
    (hr : 0 ≤ cfg.rate) (hdt : 0 ≤ dt) (n : ℕ) :
    ((psUpdate env dt)^[n] (addEmitter cfg (psInit N))).emitters = [cfg] ∧
      ((psUpdate env dt)^[n] (addEmitter cfg (psInit N))).accumulators =
        [(n : ℚ) * (cfg.rate * dt) - ((⌊(n : ℚ) * (cfg.rate * dt)⌋ : ℤ) : ℚ)] ∧
      ((psUpdate env dt)^[n] (addEmitter cfg (psInit N))).pool.length = N ∧
      ((psUpdate env dt)^[n] (addEmitter cfg (psInit N))).spawnAttempts =
        (⌊(n : ℚ) * (cfg.rate * dt)⌋).toNat ∧
      countActive ((psUpdate env dt)^[n] (addEmitter cfg (psInit N))).pool ≤
        ((psUpdate env dt)^[n] (addEmitter cfg (psInit N))).spawnCount ∧
      ((⌊(n : ℚ) * (cfg.rate * dt)⌋).toNat ≤ N →
        ((psUpdate env dt)^[n] (addEmitter cfg (psInit N))).spawnCount =
          ((psUpdate env dt)^[n] (addEmitter cfg (psInit N))).spawnAttempts) := by
  have hq : (0 : ℚ) ≤ cfg.rate * dt := mul_nonneg hr hdt
  induction n with
  | zero =>
      refine ⟨?_, ?_, ?_, ?_, ?_, ?_⟩
      · simp [addEmitter, psInit]
      · simp [addEmitter, psInit]
      · simp [addEmitter, psInit]
      · simp [addEmitter, psInit]
      · simp [addEmitter, psInit, countActive_replicate_dead]
      · intro _
        rfl
  | succ n ih =>
      obtain ⟨hem, hacc, hlen, hatt, hact, hcond⟩ := ih
      set S := (psUpdate env dt)^[n] (addEmitter cfg (psInit N)) with hS
      set x := (n : ℚ) * (cfg.rate * dt) with hx
      set acc := x - ((⌊x⌋ : ℤ) : ℚ) with haccdef
      have hx0 : (0 : ℚ) ≤ x := by
        rw [hx]
        positivity
      have h0x : (0 : ℤ) ≤ ⌊x⌋ := Int.floor_nonneg.mpr hx0
      have haa : (0 : ℚ) ≤ acc + cfg.rate * dt := by
        have : (0 : ℚ) ≤ acc := by
          rw [haccdef]
          exact sub_nonneg.mpr (Int.floor_le x)
        linarith
      have hxq : acc + cfg.rate * dt =
          ((n + 1 : ℕ) : ℚ) * (cfg.rate * dt) - ((⌊x⌋ : ℤ) : ℚ) := by
        rw [haccdef, hx]
        push_cast
        ring
      have hfloor_aa : ⌊acc + cfg.rate * dt⌋ =
          ⌊((n + 1 : ℕ) : ℚ) * (cfg.rate * dt)⌋ - ⌊x⌋ := by
        rw [hxq, Int.floor_sub_int]
      have hmono : ⌊x⌋ ≤ ⌊((n + 1 : ℕ) : ℚ) * (cfg.rate * dt)⌋ := by
        apply Int.floor_le_floor
        rw [hx]
        push_cast
        nlinarith
      have h0aa : (0 : ℤ) ≤ ⌊acc + cfg.rate * dt⌋ := by omega
      obtain ⟨D1, D2, D3, D4, D5, D6⟩ :=
        drain_spec env cfg ((⌊acc + cfg.rate * dt⌋).toNat) (acc + cfg.rate * dt) S haa rfl
      have hEP : emitPass env dt S.emitters S.accumulators S =
          ([(drain env cfg ((⌊acc + cfg.rate * dt⌋).toNat) (acc + cfg.rate * dt) S).1],
            (drain env cfg ((⌊acc + cfg.rate * dt⌋).toNat) (acc + cfg.rate * dt) S).2) := by
        rw [hem, hacc]
        rfl
      rw [Function.iterate_succ_apply', ← hS]
      refine ⟨?_, ?_, ?_, ?_, ?_, ?_⟩
      · show (emitPass env dt S.emitters S.accumulators S).2.emitters = [cfg]
        rw [hEP, D4, hem]
      · show (emitPass env dt S.emitters S.accumulators S).1 = _
        rw [hEP, D1]
        have hc : (((⌊acc + cfg.rate * dt⌋).toNat : ℕ) : ℚ) =
            ((⌊acc + cfg.rate * dt⌋ : ℤ) : ℚ) := by
          exact_mod_cast Int.toNat_of_nonneg h0aa
        rw [hc, hfloor_aa, hxq]
        push_cast
        ring_nf
      · show ((emitPass env dt S.emitters S.accumulators S).2.pool.map _).length = N
        rw [hEP]
        rw [List.length_map, D3, hlen]
      · show (emitPass env dt S.emitters S.accumulators S).2.spawnAttempts = _
        rw [hEP, D2, hatt]
        omega
      · show countActive ((emitPass env dt S.emitters S.accumulators S).2.pool.map _) ≤
          (emitPass env dt S.emitters S.accumulators S).2.spawnCount
        rw [hEP]
        exact le_trans (countActive_map_le _ _ _) (D6 hact).1
      · intro hcap
        show (emitPass env dt S.emitters S.accumulators S).2.spawnCount =
          (emitPass env dt S.emitters S.accumulators S).2.spawnAttempts
        rw [hEP, D2, hatt]
        have hcap_n : (⌊x⌋).toNat ≤ N := by omega
        have hsc := hcond hcap_n
        rw [hatt] at hsc
        have hfit : S.spawnCount + (⌊acc + cfg.rate * dt⌋).toNat ≤ S.pool.length := by
          rw [hsc, hlen]
          omega
        rw [(D6 hact).2 hfit, hsc]

/-- C6 amended: for a single emitter at rate `r` and constant step `dt`,
the fractional accumulator makes the number of spawn ATTEMPTS after `n`
updates exactly `⌊n·r·dt⌋` — within one particle of `r·T` for `T = n·dt`
— and the number of particles actually spawned equals the attempts
whenever the pool capacity covers them; pool exhaustion silently drops
the surplus. -/
theorem particle_spawn_rate (env : MathEnv) (cfg : ParticleEmitterConfig) (N n : ℕ)
    (dt : ℚ) (hr : 0 ≤ cfg.rate) (hdt : 0 ≤ dt) :
    ((psUpdate env dt)^[n] (addEmitter cfg (psInit N))).spawnAttempts =
        (⌊(n : ℚ) * (cfg.rate * dt)⌋).toNat ∧
      ((((⌊(n : ℚ) * (cfg.rate * dt)⌋).toNat : ℕ) : ℚ) ≤ (n : ℚ) * (cfg.rate * dt) ∧
        (n : ℚ) * (cfg.rate * dt) - 1 <
          (((⌊(n : ℚ) * (cfg.rate * dt)⌋).toNat : ℕ) : ℚ)) ∧
      ((⌊(n : ℚ) * (cfg.rate * dt)⌋).toNat ≤ N →
        ((psUpdate env dt)^[n] (addEmitter cfg (psInit N))).spawnCount =
          (⌊(n : ℚ) * (cfg.rate * dt)⌋).toNat) := by
  obtain ⟨_, _, _, hatt, _, hcond⟩ := psRun_single env cfg N dt hr hdt n
  have hx0 : (0 : ℚ) ≤ (n : ℚ) * (cfg.rate * dt) :=
    mul_nonneg (Nat.cast_nonneg n) (mul_nonneg hr hdt)
  have h0 : (0 : ℤ) ≤ ⌊(n : ℚ) * (cfg.rate * dt)⌋ := Int.floor_nonneg.mpr hx0
  have hcast : (((⌊(n : ℚ) * (cfg.rate * dt)⌋).toNat : ℕ) : ℚ) =
      ((⌊(n : ℚ) * (cfg.rate * dt)⌋ : ℤ) : ℚ) := by
    exact_mod_cast Int.toNat_of_nonneg h0
  refine ⟨hatt, ⟨?_, ?_⟩, fun hcap => ?_⟩
  · rw [hcast]
    exact Int.floor_le _
  · rw [hcast]
    have := Int.sub_one_lt_floor ((n : ℚ) * (cfg.rate * dt))
    linarith
  · rw [hcond hcap, hatt]

/-- Trivial `Math` oracle: every random draw is 0, cos is 1, sin is 0. -/
def env0 : MathEnv := { rand := fun _ => 0, cos := fun _ => 1, sin := fun _ => 0 }

/-- Rate-10 emitter with inert kinematics and long lifetimes. -/
def psCfg10 : ParticleEmitterConfig :=
  { x := 0, y := 0, rate := 10, spread := 0, angle := 0, speedMin := 0, speedMax := 0
    colors := ["#fff"], lifetimeMin := 100, lifetimeMax := 100, gravity := 0
    sizeMin := 0, sizeMax := 0, maxParticles := 40, alphaMax := none }

/-- Rate-2 emitter, otherwise as `psCfg10`. -/
def psCfg2 : ParticleEmitterConfig := { psCfg10 with rate := 2 }

theorem particle_spawn_rate_witness :
    ((psUpdate env0 (1/60))^[300] (addEmitter psCfg10 (psInit 500))).spawnAttempts = 50 ∧
      ((psUpdate env0 (1/60))^[300] (addEmitter psCfg10 (psInit 500))).spawnCount = 50 := by
  obtain ⟨h1, _, h3⟩ := particle_spawn_rate env0 psCfg10 500 300 (1/60)
    (by norm_num [psCfg10]) (by norm_num)
  have hval : (⌊((300 : ℕ) : ℚ) * (psCfg10.rate * (1/60))⌋).toNat = 50 := by
    norm_num [psCfg10]
    rfl
  exact ⟨by rw [h1, hval], by rw [h3 (by rw [hval]; norm_num), hval]⟩

/-- C6 counterexample: with pool capacity 1, an emitter at rate 2 stepped
3 times with dt = 0.5 s (T = 1.5 s, r·T = 3) spawns only 1 particle —
off by 2 from r·T, refuting the "within one particle" claim for
arbitrary emitters: pool exhaustion silently drops spawns. -/
theorem particle_pool_exhaustion_counterexample :
    ((psUpdate env0 (1/2))^[3] (addEmitter psCfg2 (psInit 1))).spawnCount = 1 ∧
      (1 : ℚ) <
        psCfg2.rate * ((3 : ℚ) * (1/2)) -
          (((psUpdate env0 (1/2))^[3] (addEmitter psCfg2 (psInit 1))).spawnCount : ℚ) := by
  have h : ((psUpdate env0 (1/2))^[3] (addEmitter psCfg2 (psInit 1))).spawnCount = 1 := by
    rw [show (3 : ℕ) = 2 + 1 from rfl, Function.iterate_succ_apply',
      show (2 : ℕ) = 1 + 1 from rfl, Function.iterate_succ_apply',
      Function.iterate_one]
    norm_num [psUpdate, emitPass, drain, spawnParticle, stepParticle, headGravity,
      addEmitter, psInit, psCfg2, psCfg10, env0, createDeadParticle]
  refine ⟨h, ?_⟩
  rw [h]
  norm_num [psCfg2, psCfg10]


/-- `spawnParticle` never reads the requesting emitter's `maxParticles`
field: overwriting it with any value leaves the result unchanged. -/
theorem spawnParticle_maxParticles (env : MathEnv) (cfg : ParticleEmitterConfig)
    (m : ℕ) (s : PSState) :
    spawnParticle env { cfg with maxParticles := m } s = spawnParticle env cfg s := rfl

theorem drain_maxParticles (env : MathEnv) (cfg : ParticleEmitterConfig) (m : ℕ) :
    ∀ (fuel : ℕ) (a : ℚ) (s : PSState),
      drain env { cfg with maxParticles := m } fuel a s = drain env cfg fuel a s := by
  intro fuel
  induction fuel with
  | zero => intro a s; rfl
  | succ k ih =>
      intro a s
      unfold drain
      by_cases hc : (1 : ℚ) ≤ a
      · rw [if_pos hc, if_pos hc, spawnParticle_maxParticles, ih]
      · rw [if_neg hc, if_neg hc]

theorem burst_maxParticles (env : MathEnv) (cfg : ParticleEmitterConfig) (m : ℕ) :
    ∀ (n : ℕ) (s : PSState),
      burst env { cfg with maxParticles := m } n s = burst env cfg n s := by
  intro n
  induction n with
  | zero => intro s; rfl
  | succ k ih =>
      intro s
      show burst env { cfg with maxParticles := m } k
        (spawnParticle env { cfg with maxParticles := m } s) = _
      rw [spawnParticle_maxParticles, ih]
      rfl

theorem emitPass_maxParticles (env : MathEnv) (dt : ℚ) (m : ℕ) :
    ∀ (cs : List ParticleEmitterConfig) (accs : List ℚ) (s : PSState),
      emitPass env dt (cs.map (fun c => { c with maxParticles := m })) accs s =
        emitPass env dt cs accs s := by
  intro cs
  induction cs with
  | nil => intro accs s; rfl
  | cons c cs ih =>
      intro accs s
      cases accs with
      | nil => rfl
      | cons a accs =>
          simp only [List.map_cons, emitPass]
          rw [drain_maxParticles, ih]

/-- `spawnParticle` neither reads nor writes the emitter table stored in
the state: replacing it commutes with a spawn. -/
theorem spawnParticle_set_emitters (env : MathEnv) (cfg : ParticleEmitterConfig)
    (E : List ParticleEmitterConfig) (s : PSState) :
    spawnParticle env cfg { s with emitters := E } =
      { spawnParticle env cfg s with emitters := E } := by
  unfold spawnParticle
  rcases hf : s.pool.findIdx? (fun p => !p.active) with _ | i <;>
    simp only [hf] <;> rfl

theorem drain_set_emitters (env : MathEnv) (cfg : ParticleEmitterConfig)
    (E : List ParticleEmitterConfig) :
    ∀ (fuel : ℕ) (a : ℚ) (s : PSState),
      drain env cfg fuel a { s with emitters := E } =
        ((drain env cfg fuel a s).1, { (drain env cfg fuel a s).2 with emitters := E }) := by
  intro fuel
  induction fuel with
  | zero => intro a s; rfl
  | succ k ih =>
      intro a s
      unfold drain
      by_cases hc : (1 : ℚ) ≤ a
      · rw [if_pos hc, if_pos hc, spawnParticle_set_emitters, ih]
      · rw [if_neg hc, if_neg hc]

theorem emitPass_set_emitters (env : MathEnv) (dt : ℚ)
    (E : List ParticleEmitterConfig) :
    ∀ (cs : List ParticleEmitterConfig) (accs : List ℚ) (s : PSState),
      emitPass env dt cs accs { s with emitters := E } =
        ((emitPass env dt cs accs s).1,
          { (emitPass env dt cs accs s).2 with emitters := E }) := by
  intro cs
  induction cs with
  | nil => intro accs s; rfl
  | cons c cs ih =>
      intro accs s
      cases accs with
      | nil => rfl
      | cons a accs =>
          simp only [emitPass]
          rw [drain_set_emitters]
          dsimp only
          rw [ih]

theorem drain_emitters_preserved (env : MathEnv) (cfg : ParticleEmitterConfig) :
    ∀ (fuel : ℕ) (a : ℚ) (s : PSState),
      (drain env cfg fuel a s).2.emitters = s.emitters := by
  intro fuel
  induction fuel with
  | zero => intro a s; rfl
  | succ k ih =>
      intro a s
      unfold drain
      by_cases hc : (1 : ℚ) ≤ a
      · rw [if_pos hc, ih, spawnParticle_emitters]
      · rw [if_neg hc]

theorem emitPass_emitters_preserved (env : MathEnv) (dt : ℚ) :
    ∀ (cs : List ParticleEmitterConfig) (accs : List ℚ) (s : PSState),
      (emitPass env dt cs accs s).2.emitters = s.emitters := by
  intro cs
  induction cs with
  | nil => intro accs s; rfl
  | cons c cs ih =>
      intro accs s
      cases accs with
      | nil => rfl
      | cons a accs =>
          show (emitPass env dt cs accs
            (drain env c (⌊a + c.rate * dt⌋).toNat (a + c.rate * dt) s).2).2.emitters =
            s.emitters
          rw [ih, drain_emitters_preserved]

/-- A whole `update(dt)` step is blind to `maxParticles`: overwriting the
field on every stored emitter yields the same pool, accumulators, rng
position and spawn counters — the only difference is the stored copy of
the configs themselves. -/
theorem psUpdate_maxParticles (env : MathEnv) (dt : ℚ) (m : ℕ) (s : PSState) :
    psUpdate env dt
        { s with emitters := s.emitters.map (fun c => { c with maxParticles := m }) } =
      { psUpdate env dt s with
        emitters := s.emitters.map (fun c => { c with maxParticles := m }) } := by
  have key : emitPass env dt (s.emitters.map (fun c => { c with maxParticles := m }))
      s.accumulators
      { s with emitters := s.emitters.map (fun c => { c with maxParticles := m }) } =
      ((emitPass env dt s.emitters s.accumulators s).1,
        { (emitPass env dt s.emitters s.accumulators s).2 with
          emitters := s.emitters.map (fun c => { c with maxParticles := m }) }) := by
    rw [emitPass_set_emitters, emitPass_maxParticles]
  have hg : headGravity (s.emitters.map (fun c => { c with maxParticles := m })) =
      headGravity (emitPass env dt s.emitters s.accumulators s).2.emitters := by
    rw [emitPass_emitters_preserved]
    cases s.emitters <;> rfl
  unfold psUpdate
  dsimp only
  rw [key]
  dsimp only
  rw [hg]

/-- C10: the ParticleSystem never enforces the per-emitter `maxParticles`
field. Overwriting `maxParticles` with any value changes nothing: not a
single spawn (`spawnParticle`), not the rate-driven accumulator drain
(`drain`), not `burst`, and not a whole `update` step (`psUpdate`, whose
result differs only in the stored copy of the configs themselves).
Moreover a spawn creates a particle exactly when some slot of the shared
pool is inactive: it succeeds whenever `countActive < pool.length`, and
when the pool is saturated it fails — the attempt is counted but nothing
is created — so total pool capacity is the only spawn limit ever applied. -/
theorem particle_maxParticles_never_enforced :
    (∀ (env : MathEnv) (cfg : ParticleEmitterConfig) (m : ℕ) (s : PSState),
        spawnParticle env { cfg with maxParticles := m } s = spawnParticle env cfg s) ∧
      (∀ (env : MathEnv) (cfg : ParticleEmitterConfig) (m fuel : ℕ) (a : ℚ)
          (s : PSState),
        drain env { cfg with maxParticles := m } fuel a s = drain env cfg fuel a s) ∧
      (∀ (env : MathEnv) (cfg : ParticleEmitterConfig) (m n : ℕ) (s : PSState),
        burst env { cfg with maxParticles := m } n s = burst env cfg n s) ∧
      (∀ (env : MathEnv) (dt : ℚ) (m : ℕ) (s : PSState),
        psUpdate env dt
            { s with emitters := s.emitters.map (fun c => { c with maxParticles := m }) } =
          { psUpdate env dt s with
            emitters := s.emitters.map (fun c => { c with maxParticles := m }) }) ∧
      (∀ (env : MathEnv) (cfg : ParticleEmitterConfig) (s : PSState),
        countActive s.pool < s.pool.length →
          (spawnParticle env cfg s).spawnCount = s.spawnCount + 1) ∧
      (∀ (env : MathEnv) (cfg : ParticleEmitterConfig) (s : PSState),
        countActive s.pool = s.pool.length →
          spawnParticle env cfg s = { s with spawnAttempts := s.spawnAttempts + 1 }) :=
  ⟨fun env cfg m s => spawnParticle_maxParticles env cfg m s,
    fun env cfg m fuel a s => drain_maxParticles env cfg m fuel a s,
    fun env cfg m n s => burst_maxParticles env cfg m n s,
    fun env dt m s => psUpdate_maxParticles env dt m s,
    fun env cfg s h => spawnParticle_success env cfg s h,
    fun env cfg s h => spawnParticle_failure env cfg s h⟩

theorem particle_maxParticles_never_enforced_witness :
    spawnParticle env0 { psCfg10 with maxParticles := 0 } (psInit 3) =
        spawnParticle env0 psCfg10 (psInit 3) ∧
      countActive (psInit 3).pool < (psInit 3).pool.length ∧
      (spawnParticle env0 psCfg10 (psInit 3)).spawnCount = (psInit 3).spawnCount + 1 ∧
      countActive (psInit 0).pool = (psInit 0).pool.length ∧
      spawnParticle env0 psCfg10 (psInit 0) =
        { psInit 0 with spawnAttempts := (psInit 0).spawnAttempts + 1 } := by
  have h1 : countActive (psInit 3).pool < (psInit 3).pool.length := by
    show countActive (List.replicate 3 createDeadParticle) <
      (List.replicate 3 createDeadParticle).length
    rw [countActive_replicate_dead]
    simp
  have h2 : countActive (psInit 0).pool = (psInit 0).pool.length := rfl
  exact ⟨particle_maxParticles_never_enforced.1 env0 psCfg10 0 (psInit 3), h1,
    particle_maxParticles_never_enforced.2.2.2.2.1 env0 psCfg10 (psInit 3) h1, h2,
    particle_maxParticles_never_enforced.2.2.2.2.2 env0 psCfg10 (psInit 0) h2⟩
